import Mathlib

/-!
Verification of the HackTrail scan-orchestration engine.

This file gives a shallow embedding of the server-side orchestration code
(`server/routes.ts`, `server/storage.ts`, `server/database.ts`) and proves or
refutes the behavioural claims about it.

Modelling conventions:
* `Math.random()` outcomes are modelled as exact fractions (`Frac`), one per
  call, supplied by a stream `g : ℕ → Frac`; a call counter is threaded
  explicitly through every function that draws randomness.  Real (rational)
  arithmetic stands in for IEEE-754 double arithmetic; none of the proved
  properties depends on float rounding.
* JavaScript string helpers (`split`, `trim`, `includes`, `parseInt`,
  `Number`) are re-implemented structurally over `String.data` so that the
  kernel can evaluate them; `jsParseInt`/`jsNumber` return `none` for `NaN`.
* Probe results (the `dns` module) are oracles packaged in `DnsEnv`; a
  lookup that would throw is `none`, a successful resolution is `some ()`.
  The `include:` regular-expression matcher applied to joined TXT records is
  likewise an oracle (`txtIncludeMatches`); the surrounding guard, the
  `substring(8)` stripping and the dedup logic are embedded from the source.
-/

set_option maxRecDepth 8000

namespace HackTrail

/-- One `Math.random()` outcome, an exact fraction `num / den`. -/
structure Frac where
  num : ℕ
  den : ℕ
deriving DecidableEq

/-- A fraction models a `Math.random()` value when it lies in `[0, 1)`. -/
def Frac.Valid (f : Frac) : Prop := f.num < f.den

/-- The random stream is valid when every drawn value lies in `[0, 1)`. -/
def ValidRng (g : ℕ → Frac) : Prop := ∀ n, (g n).Valid

/-- `Math.floor(r * n)` for a random value `r` and a natural `n`. -/
def Frac.mulFloor (f : Frac) (n : ℕ) : ℕ := f.num * n / f.den

/-- `r > t/10`, modelling comparisons such as `Math.random() > 0.7`. -/
def Frac.gtTenths (f : Frac) (t : ℕ) : Bool := decide (10 * f.num > t * f.den)

/-- `randomChoice(array)` from routes.ts: `array[Math.floor(Math.random() * array.length)]`;
`none` is JavaScript `undefined` (an out-of-range index, impossible for a
valid draw and a non-empty array). -/
def randChoice {α : Type} (l : List α) (f : Frac) : Option α :=
  l.get? (f.mulFloor l.length)

/-- Exchange of the elements at positions `i` and `j`, the body of the
`shuffle` loop (`[result[i], result[j]] = [result[j], result[i]]`); the
identity when an index is out of range (unreachable for valid draws). -/
def listSwap {α : Type} (l : List α) (i j : ℕ) : List α :=
  match l.get? i, l.get? j with
  | some a, some b => (l.set i b).set j a
  | _, _ => l

/-- The Fisher–Yates loop of `shuffle` in routes.ts, counting the loop index
`i` down; the second component is the advanced random-call counter. -/
def fyLoop {α : Type} (g : ℕ → Frac) : List α → ℕ → ℕ → List α × ℕ
  | l, k, 0 => (l, k)
  | l, k, i + 1 => fyLoop g (listSwap l (i + 1) ((g k).mulFloor (i + 2))) (k + 1) i

/-- `shuffle(array)` from routes.ts (Fisher–Yates over a copy). -/
def jsShuffle {α : Type} (g : ℕ → Frac) (l : List α) (k : ℕ) : List α × ℕ :=
  fyLoop g l k (l.length - 1)

/-- Splitting a character sequence at a separator, as `String.prototype.split`
with a single-character separator (`"".split(c) = [""]`). -/
def splitOnChar (sep : Char) : List Char → List (List Char)
  | [] => [[]]
  | c :: rest =>
      let r := splitOnChar sep rest
      if c = sep then [] :: r
      else
        match r with
        | [] => [[c]]
        | h :: t => (c :: h) :: t

/-- JavaScript `s.split(sep)` for a one-character separator. -/
def jsSplit (s : String) (sep : Char) : List String :=
  (splitOnChar sep s.data).map String.mk

/-- JavaScript whitespace for `trim`. -/
def isWs (c : Char) : Bool := c = ' ' ∨ c = '\t' ∨ c = '\n' ∨ c = '\r'

/-- JavaScript `s.trim()`. -/
def jsTrim (s : String) : String :=
  String.mk (((s.data.dropWhile isWs).reverse.dropWhile isWs).reverse)

/-- Whether `pat` occurs as a contiguous subsequence of `s`. -/
def seqContains (pat : List Char) : List Char → Bool
  | [] => pat.isPrefixOf []
  | c :: cs => pat.isPrefixOf (c :: cs) || seqContains pat cs

/-- JavaScript `s.includes(t)`. -/
def strIncludes (s t : String) : Bool := seqContains t.data s.data

/-- Decimal digit test. -/
def isDigit (c : Char) : Bool := decide ('0' ≤ c ∧ c ≤ '9')

/-- Value of a digit list, most significant first. -/
def digitsVal (ds : List Char) : ℕ :=
  ds.foldl (fun acc c => acc * 10 + (c.toNat - 48)) 0

/-- Leading decimal number of a character sequence, `none` when there is no
leading digit (the `NaN` case of `parseInt`). -/
def leadingNat (cs : List Char) : Option ℕ :=
  let ds := cs.takeWhile isDigit
  if ds = [] then none else some (digitsVal ds)

/-- JavaScript `parseInt(s)`: trim, optional sign, longest leading digit run;
`none` models `NaN`. -/
def jsParseInt (s : String) : Option ℤ :=
  match (jsTrim s).data with
  | '-' :: rest => (leadingNat rest).map (fun n => -(n : ℤ))
  | '+' :: rest => (leadingNat rest).map (fun n => (n : ℤ))
  | cs => (leadingNat cs).map (fun n => (n : ℤ))

/-- JavaScript `Number(s)` restricted to integer literals: trim; the empty
string is `0`; otherwise an optional sign followed by digits only, and any
other shape is `NaN` (`none`). -/
def jsNumber (s : String) : Option ℤ :=
  match (jsTrim s).data with
  | [] => some 0
  | '-' :: rest => if rest ≠ [] ∧ rest.all isDigit then some (-(digitsVal rest : ℤ)) else none
  | '+' :: rest => if rest ≠ [] ∧ rest.all isDigit then some ((digitsVal rest : ℤ)) else none
  | cs => if cs.all isDigit then some ((digitsVal cs : ℤ)) else none

/-- First label of a host name: `s.split('.')[0]`. -/
def headLabel (s : String) : String :=
  String.mk (s.data.takeWhile (fun c => !(c = '.')))

/-! ## Subdomain enumeration (`performSubdomainEnumeration`, routes.ts) -/

/-- DNS oracles for one run: `ns`/`mx`/`txt` are the `resolveNs`/`resolveMx`
(exchanges only)/`resolveTxt` answers, `none` when the call throws;
`txtIncludeMatches` stands for `txtStr.match(/include:([a-zA-Z0-9.-]+\.[a-zA-Z0-9.-]+)/g)`;
`lookup name = some ()` when `dns.lookup(name)` resolves and `none` when it
throws (timeout, NXDOMAIN, ...). -/
structure DnsEnv where
  ns : Option (List String)
  mx : Option (List String)
  txt : Option (List (List String))
  txtIncludeMatches : String → Option (List String)
  lookup : String → Option Unit

/-- The `techniques` argument of `performSubdomainEnumeration`: normally a
string selector, but callers may pass a raw string array (used as the custom
wordlist when `wordlist === "custom"`). -/
inductive TechArg
  | str (s : String)
  | arr (l : List String)
deriving DecidableEq

/-- The 20-entry default wordlist of routes.ts. -/
def defaultPfxs : List String :=
  ["www", "mail", "ftp", "admin", "blog", "shop", "dev",
   "api", "test", "staging", "app", "support", "secure",
   "vpn", "cdn", "media", "static", "forum", "ns1", "ns2"]

/-- The 60-entry `common` wordlist of routes.ts. -/
def commonPfxs : List String :=
  ["www", "mail", "ftp", "admin", "blog", "shop", "dev", "api", "test", "staging", "app",
   "support", "secure", "vpn", "cdn", "media", "static", "forum", "ns1", "ns2", "portal",
   "intranet", "remote", "server", "services", "store", "web", "cloud", "exchange", "internal",
   "corp", "docs", "download", "downloads", "email", "host", "login", "manage", "management",
   "mobile", "new", "news", "old", "pop", "pop3", "private", "repository", "search", "smtp",
   "social", "sql", "ssh", "staff", "svn", "ww1", "ww2", "www1", "www2", "git", "beta", "demo"]

/-- The `large` wordlist of routes.ts (the `common` list and the extended
block, duplicates included exactly as written in the source). -/
def largePfxs : List String :=
  commonPfxs ++
  ["accounting", "accounts", "analytics", "apollo", "assets", "auth", "authentication",
   "backup", "backups", "billing", "calendar", "chat", "cms", "community", "config",
   "connect", "contact", "control", "core", "cp", "crm", "customer", "customers", "dashboard",
   "data", "database", "db", "debug", "desktop", "dev1", "dev2", "development", "devops",
   "director", "directory", "dns", "domain", "domains", "drupal", "edu", "events", "example",
   "extranet", "feed", "file", "files", "finance", "forms", "gateway", "groups", "help",
   "home", "hr", "httpd", "id", "image", "images", "imap", "img", "info", "integration",
   "internet", "ip", "ipv6", "jenkins", "jira", "lab", "labs", "library", "link", "lists",
   "localhost", "log", "logs", "lyncdiscover", "mail2", "mailgate", "manager", "marketing",
   "member", "members", "mercury", "monitor", "monitoring", "mssql", "mysql", "name", "nat",
   "new-staff", "newmail", "newsletter", "ns3", "ns4", "office", "online", "operations", "oracle",
   "order", "orders", "owa", "partners", "password", "payments", "payroll", "pgsql", "phpmyadmin",
   "podcast", "preprod", "pre-prod", "preview", "print", "priv", "prod", "production", "profiles",
   "project", "projects", "proxy", "public", "qa", "redirect", "reports", "research", "resources",
   "restricted", "reviews", "root", "router", "rss", "s1", "s2", "s3", "sales", "sample", "samples",
   "sandbox", "sc", "search", "secure1", "secure2", "security", "seo", "server1", "server2",
   "service", "sftp", "sharepoint", "shop2", "signup", "site", "siteadmin", "sitebuilder",
   "sites", "sms", "solr", "sso", "status", "storage", "store2", "streaming", "support2",
   "surveys", "sysadmin", "system", "teamcity", "temp", "terraform", "tftp", "thunder", "ticket",
   "tickets", "time", "tools", "tracking", "traffic", "training", "translate", "traveler",
   "ts", "update", "updates", "upload", "uploads", "user", "users", "video", "videos", "view",
   "virtual", "vm", "voip", "vpn2", "weather", "webadmin", "webconf", "webdisk", "webmail",
   "webmaster", "wordpress", "workspace", "wp", "www3", "www4", "jenkins", "jira", "gitlab",
   "github", "status", "confluence", "wiki", "grafana", "prometheus", "kibana", "elastic",
   "splunk", "nagios", "zabbix", "kubernetes", "k8s", "redis", "memcached", "mongodb"]

/-- Append a string if it is not yet present (`subdomains.push` guarded by
`!subdomains.includes(...)`, and likewise `Set.prototype.add` in insertion
order). -/
def pushNew (acc : List String) (x : String) : List String :=
  if x ∈ acc then acc else acc ++ [x]

/-- `[...new Set(prefixes)]`: first-occurrence deduplication. -/
def dedupList (l : List String) : List String := l.foldl pushNew []

/-- Wordlist selection of routes.ts lines 340–395: the selector picks a fixed
list; `custom` uses the `techniques` argument itself when it is an array; any
other selector leaves the prefix list empty. -/
def selectPfxs (t : TechArg) (wordlist : String) : List String :=
  if wordlist = "default" then defaultPfxs
  else if wordlist = "common" then commonPfxs
  else if wordlist = "large" then largePfxs
  else if wordlist = "custom" then
    match t with
    | .arr l => l
    | .str _ => []
  else []

/-- The deduplicated prefix list actually used by the strategy. -/
def subWordPfxs (t : TechArg) (wordlist : String) : List String :=
  dedupList (selectPfxs t wordlist)

/-- `techniques === "all" || techniques === "dns"`. -/
def useDNS (t : TechArg) : Bool :=
  decide (t = .str "all" ∨ t = .str "dns")

/-- `techniques === "all" || techniques === "bruteforce"`. -/
def useBruteForce (t : TechArg) : Bool :=
  decide (t = .str "all" ∨ t = .str "bruteforce")

/-- `techniques === "all" || techniques === "permutations"`. -/
def usePermutations (t : TechArg) : Bool :=
  decide (t = .str "all" ∨ t = .str "permutations")

/-- Push a DNS-discovered name when it is new and mentions the domain
(`!subdomains.includes(x) && x.includes(domain)`). -/
def dnsAdd (domain : String) (acc : List String) (x : String) : List String :=
  if x ∉ acc ∧ strIncludes x domain then acc ++ [x] else acc

/-- Handling of one TXT record: join the chunks, look for `include:` and add
every matched domain that mentions the target and is new (routes.ts
lines 431–447; the regex itself is the `txtIncludeMatches` oracle, each match
is stripped of its 8-character `include:` head). -/
def txtStep (env : DnsEnv) (domain : String) (acc : List String) (txtRec : List String) :
    List String :=
  let txtStr := String.join txtRec
  if strIncludes txtStr "include:" then
    match env.txtIncludeMatches txtStr with
    | some ms =>
        ms.foldl
          (fun a m =>
            let includeDomain := m.drop 8
            if strIncludes includeDomain domain ∧ includeDomain ∉ a then a ++ [includeDomain]
            else a)
          acc
    | none => acc
  else acc

/-- Phase 1, DNS-record based enumeration (NS, MX, TXT; each `catch` ignores
a throwing resolver). -/
def dnsPhase (env : DnsEnv) (domain : String) (acc : List String) : List String :=
  let acc1 := match env.ns with
    | some l => l.foldl (dnsAdd domain) acc
    | none => acc
  let acc2 := match env.mx with
    | some l => l.foldl (dnsAdd domain) acc1
    | none => acc1
  match env.txt with
  | some recs => recs.foldl (txtStep env domain) acc2
  | none => acc2

/-- One wrapped probe: `lookup(subdomain)` returning the name on success and
`null` on a caught failure. -/
def probeOutcome (env : DnsEnv) (name : String) : Option String :=
  match env.lookup name with
  | some _ => some name
  | none => none

/-- Merging one batch of probe outcomes into the accumulator
(`results.forEach(result => { if (result && !subdomains.includes(result)) ... })`). -/
def processBatchResults (acc : List String) (rs : List (Option String)) : List String :=
  rs.foldl
    (fun a r =>
      match r with
      | some s => if s ∉ a then a ++ [s] else a
      | none => a)
    acc

/-- The batching loop of routes.ts: slices of `batchSize = 10` are awaited
with `Promise.all` (which preserves candidate order) and merged slice by
slice.  Because the merge handles outcomes one at a time in order, the loop
is the fold of `processBatchResults` over the whole outcome list — the
literal slice-wise loop is `batchedRun` below, proved equal in
`batchedRun_eq_batchLoop`. -/
def batchLoop (acc : List String) (rs : List (Option String)) : List String :=
  processBatchResults acc rs

/-- The literal slice-wise batching loop
(`for (let i = 0; i < lookupPromises.length; i += batchSize)` with
`batchSize = 10`). -/
def batchedRun (acc : List String) (rs : List (Option String)) : List String :=
  if h : rs = [] then acc
  else batchedRun (processBatchResults acc (rs.take 10)) (rs.drop 10)
termination_by rs.length
decreasing_by
  simp only [List.length_drop]
  have hpos : 0 < rs.length := List.length_pos.mpr h
  omega

/-- Brute-force candidates: `` `${prefix}.${domain}` `` for every prefix. -/
def bruteCands (domain : String) (pfxs : List String) : List String :=
  pfxs.map (fun p => p ++ "." ++ domain)

/-- The merged result set after the DNS phase and the brute-force phase
(phases 1 and 2 of `performSubdomainEnumeration`). -/
def subPhase12 (env : DnsEnv) (domain : String) (t : TechArg) (wordlist : String) :
    List String :=
  let s1 := if useDNS t then dnsPhase env domain [] else []
  if useBruteForce t then
    batchLoop s1 ((bruteCands domain (subWordPfxs t wordlist)).map (probeOutcome env))
  else s1

/-- Permutation candidates (phase 3): every discovered first label combined
with every wordlist prefix using separators `-` and `.` in both orders,
collected in a JS `Set` (insertion-ordered, deduplicated). -/
def permCands (domain : String) (pfxs : List String) (subs : List String) : List String :=
  let discovered := subs.map headLabel
  discovered.foldl
    (fun acc p =>
      pfxs.foldl
        (fun acc2 c =>
          ["-", "."].foldl
            (fun acc3 sep =>
              pushNew (pushNew acc3 (p ++ sep ++ c ++ "." ++ domain))
                (c ++ sep ++ p ++ "." ++ domain))
            acc2)
        acc)
    []

/-- Trace of one `performSubdomainEnumeration` run: the returned list, the
names handed to `lookup` by the brute-force phase, the non-null outcomes of
those probes, and the names handed to `lookup` by the permutation phase. -/
structure SubEnumRun where
  subdomains : List String
  bruteProbed : List String
  bruteResolved : List String
  permProbed : List String
deriving DecidableEq

/-- `performSubdomainEnumeration(domain, techniques, wordlist)` of routes.ts
lines 331–522, instrumented with the probe log of each batched phase. -/
def performSubdomainEnumeration (env : DnsEnv) (domain : String) (t : TechArg)
    (wordlist : String) : SubEnumRun :=
  let pfxs := subWordPfxs t wordlist
  let s2 := subPhase12 env domain t wordlist
  let bcands := if useBruteForce t then bruteCands domain pfxs else []
  let pcands := if usePermutations t ∧ 0 < s2.length then permCands domain pfxs s2 else []
  let s3 :=
    if usePermutations t ∧ 0 < s2.length then batchLoop s2 (pcands.map (probeOutcome env))
    else s2
  ⟨s3, bcands, (bcands.map (probeOutcome env)).filterMap id, pcands⟩

/-! ## Storage gateway and scan orchestration (`storage.ts`, `database.ts`,
`processScan` in routes.ts)

The enums mirror the closed value sets of `shared/schema.ts` (the schema file
itself is not among the sources; §3 of the spec fixes the same closed sets,
and every comparison against them is embedded from routes.ts/storage.ts).
Timestamps are modelled as ticks of a logical clock stored in the store. -/

/-- Scan lifecycle status (`ScanStatus` of shared/schema.ts). -/
inductive ScanStatus
  | pending
  | inProgress
  | completed
  | failed
  | cancelled
deriving DecidableEq

/-- Requested scan type (`ScanType` of shared/schema.ts). -/
inductive ScanType
  | full
  | subdomain
  | parameter
  | vulnerability
  | content
  | portScan
  | techDetection
deriving DecidableEq

/-- Finding category (`ResultType` of shared/schema.ts). -/
inductive ResultType
  | subdomain
  | parameter
  | vulnerability
  | port
  | directory
  | technology
deriving DecidableEq

/-- Severity levels (`Severity` of shared/schema.ts). -/
inductive Severity
  | critical
  | high
  | medium
  | low
  | info
deriving DecidableEq

/-- A terminal scan status (spec §3: `{COMPLETED, FAILED, CANCELLED}`). -/
def isTerminal (s : ScanStatus) : Bool :=
  decide (s = .completed ∨ s = .failed ∨ s = .cancelled)

/-- One discovered parameter (`{ name, type }`). -/
structure ParamInfo where
  name : String
  ptype : String
deriving DecidableEq

/-- One flagged vulnerability (`{ type, description, severity }`). -/
structure VulnInfo where
  vtype : String
  description : String
  severity : Severity
deriving DecidableEq

/-- The findings summary blob written by `processScan`: the raw strategy
output for single-type scans, the three-field object for FULL, and the empty
object for unmatched types. -/
inductive Findings
  | subs (l : List String)
  | params (l : List ParamInfo)
  | vulns (l : List VulnInfo)
  | full (s : List String) (p : List ParamInfo) (v : List VulnInfo)
  | emptyObj
deriving DecidableEq

/-- The category-specific `details` payload of a Finding. -/
inductive Details
  | subdomainD (domain : String)
  | parameterD (name ptype : String)
  | vulnerabilityD (vtype description : String)
deriving DecidableEq

/-- A persisted scan row. -/
structure Scan where
  id : ℕ
  targetDomain : String
  scanType : ScanType
  scanDepth : ℕ
  status : ScanStatus
  startedAt : ℕ
  completedAt : Option ℕ
  findings : Option Findings
deriving DecidableEq

/-- A persisted finding row (`ScanResult`). -/
structure ScanResult where
  id : ℕ
  scanId : ℕ
  resultType : ResultType
  severity : Option Severity
  details : Details
  timestamp : ℕ
deriving DecidableEq

/-- The keyed store backing the gateway, plus the id counters of
`MemStorage` and a logical clock supplying `new Date()` values. -/
structure Store where
  scans : List Scan
  results : List ScanResult
  nextScanId : ℕ
  nextResultId : ℕ
  time : ℕ
deriving DecidableEq

/-- A fresh `MemStorage` (both id counters start at 1). -/
def initialStore : Store := ⟨[], [], 1, 1, 0⟩

/-- `MemStorage.createScan`: status PENDING, `completedAt` and `findings`
null. -/
def memCreateScan (st : Store) (target : String) (t : ScanType) (depth : ℕ) :
    Store × Scan :=
  let scan : Scan := ⟨st.nextScanId, target, t, depth, .pending, st.time, none, none⟩
  (⟨st.scans ++ [scan], st.results, st.nextScanId + 1, st.nextResultId, st.time + 1⟩, scan)

/-- `MemStorage.getScan`. -/
def memGetScan (st : Store) (id : ℕ) : Option Scan :=
  st.scans.find? (fun s => decide (s.id = id))

/-- `MemStorage.updateScanStatus`: the completed timestamp is stamped only
for COMPLETED and otherwise left at its previous value. -/
def memUpdateScanStatus (st : Store) (id : ℕ) (status : ScanStatus) :
    Store × Option Scan :=
  match st.scans.find? (fun s => decide (s.id = id)) with
  | none => (st, none)
  | some scan =>
      let upd : Scan :=
        { scan with
          status := status
          completedAt :=
            if status = ScanStatus.completed then some st.time else scan.completedAt }
      ({ st with
          scans := st.scans.map (fun s => if s.id = id then upd else s)
          time := st.time + 1 },
        some upd)

/-- `DatabaseStorage.updateScanStatus` (database.ts lines 92–107): the row's
`completedAt` is set to `new Date()` for COMPLETED and to `null` for every
other status. -/
def dbUpdateScanStatus (st : Store) (id : ℕ) (status : ScanStatus) :
    Store × Option Scan :=
  let completedAt := if status = ScanStatus.completed then some st.time else none
  match st.scans.find? (fun s => decide (s.id = id)) with
  | none => (st, none)
  | some scan =>
      let upd : Scan := { scan with status := status, completedAt := completedAt }
      ({ st with
          scans := st.scans.map (fun s => if s.id = id then upd else s)
          time := st.time + 1 },
        some upd)

/-- `MemStorage.updateScanFindings`. -/
def memUpdateScanFindings (st : Store) (id : ℕ) (f : Option Findings) :
    Store × Option Scan :=
  match st.scans.find? (fun s => decide (s.id = id)) with
  | none => (st, none)
  | some scan =>
      let upd : Scan := { scan with findings := f }
      ({ st with
          scans := st.scans.map (fun s => if s.id = id then upd else s)
          time := st.time + 1 },
        some upd)

/-- `MemStorage.createScanResult` (severity defaults to null when absent). -/
def memCreateScanResult (st : Store) (scanId : ℕ) (rt : ResultType)
    (sev : Option Severity) (d : Details) : Store × ScanResult :=
  let r : ScanResult := ⟨st.nextResultId, scanId, rt, sev, d, st.time⟩
  ({ st with
      results := st.results ++ [r]
      nextResultId := st.nextResultId + 1
      time := st.time + 1 },
    r)

/-- `MemStorage.getScanResults`: the findings of one scan, sorted by creation
time descending (a stable JS sort with comparator `b.timestamp - a.timestamp`,
modelled by insertion sort). -/
def memGetScanResults (st : Store) (scanId : ℕ) : List ScanResult :=
  List.insertionSort (fun a b => b.timestamp ≤ a.timestamp)
    (st.results.filter (fun r => decide (r.scanId = scanId)))

/-- `storeSubdomainResults`: one SUBDOMAIN finding per name, severity INFO. -/
def storeSubdomainResults (st : Store) (scanId : ℕ) (subs : List String) : Store :=
  subs.foldl
    (fun s d =>
      (memCreateScanResult s scanId ResultType.subdomain (some Severity.info)
        (Details.subdomainD d)).1)
    st

/-- `storeParameterResults`: one PARAMETER finding per parameter, severity
INFO. -/
def storeParameterResults (st : Store) (scanId : ℕ) (ps : List ParamInfo) : Store :=
  ps.foldl
    (fun s p =>
      (memCreateScanResult s scanId ResultType.parameter (some Severity.info)
        (Details.parameterD p.name p.ptype)).1)
    st

/-- `storeVulnerabilityResults`: one VULNERABILITY finding per entry, carrying
the entry's severity. -/
def storeVulnerabilityResults (st : Store) (scanId : ℕ) (vs : List VulnInfo) : Store :=
  vs.foldl
    (fun s v =>
      (memCreateScanResult s scanId ResultType.vulnerability (some v.severity)
        (Details.vulnerabilityD v.vtype v.description)).1)
    st

/-- The outcomes of the three strategies `processScan` may invoke: `.error`
models an exception escaping the strategy (`performParameterDiscovery` and
`performVulnerabilityScan` carry no internal catch; `performSubdomainEnumeration`
does, but the parameter keeps full generality). -/
structure StrategyOutcomes where
  subs : Except Unit (List String)
  params : Except Unit (List ParamInfo)
  vulns : Except Unit (List VulnInfo)

/-- The body of `processScan`'s `try` after the IN_PROGRESS transition: the
dispatch switch, storing findings as produced; `.error st` is an exception
escaping with the findings persisted so far in `st`.  Unmatched scan types
fall through the switch and keep `findings = {}`. -/
def processScanBody (env : StrategyOutcomes) (st : Store) (scanId : ℕ) (t : ScanType) :
    Except Store (Store × Findings) :=
  match t with
  | .subdomain =>
      match env.subs with
      | .error _ => .error st
      | .ok l => .ok (storeSubdomainResults st scanId l, .subs l)
  | .parameter =>
      match env.params with
      | .error _ => .error st
      | .ok l => .ok (storeParameterResults st scanId l, .params l)
  | .vulnerability =>
      match env.vulns with
      | .error _ => .error st
      | .ok l => .ok (storeVulnerabilityResults st scanId l, .vulns l)
  | .full =>
      match env.subs with
      | .error _ => .error st
      | .ok ss =>
          let st1 := storeSubdomainResults st scanId ss
          match env.params with
          | .error _ => .error st1
          | .ok ps =>
              let st2 := storeParameterResults st1 scanId ps
              match env.vulns with
              | .error _ => .error st2
              | .ok vs => .ok (storeVulnerabilityResults st2 scanId vs, .full ss ps vs)
  | _ => .ok (st, .emptyObj)

/-- `processScan` of routes.ts lines 280–329: transition to IN_PROGRESS, run
the dispatch, then persist the findings summary and COMPLETED on success, or
FAILED on any exception (the catch does not roll anything back). -/
def processScan (env : StrategyOutcomes) (st0 : Store) (scanId : ℕ) (t : ScanType) :
    Store :=
  let st1 := (memUpdateScanStatus st0 scanId ScanStatus.inProgress).1
  match processScanBody env st1 scanId t with
  | .ok (st2, f) =>
      let st3 := (memUpdateScanFindings st2 scanId (some f)).1
      (memUpdateScanStatus st3 scanId ScanStatus.completed).1
  | .error st2 => (memUpdateScanStatus st2 scanId ScanStatus.failed).1

/-! ## Port scanning (`simulatePortScan`, routes.ts lines 770–929) -/

/-- One returned port entry; `state` is the literal string written by the
source. -/
structure PortEntry where
  port : ℕ
  state : String
  service : Option String
  banner : Option String
deriving DecidableEq

/-- The static port → service table. -/
def serviceMap (p : ℕ) : Option String :=
  if p = 21 then some "ftp"
  else if p = 22 then some "ssh"
  else if p = 23 then some "telnet"
  else if p = 25 then some "smtp"
  else if p = 53 then some "dns"
  else if p = 80 then some "http"
  else if p = 110 then some "pop3"
  else if p = 143 then some "imap"
  else if p = 443 then some "https"
  else if p = 445 then some "smb"
  else if p = 3306 then some "mysql"
  else if p = 3389 then some "rdp"
  else if p = 5432 then some "postgresql"
  else if p = 8080 then some "http-proxy"
  else if p = 8443 then some "https-alt"
  else none

/-- The static service → representative banners table. -/
def bannerMap (s : String) : Option (List String) :=
  if s = "ssh" then
    some ["SSH-2.0-OpenSSH_8.4p1",
          "SSH-2.0-OpenSSH_7.9p1 Debian-10+deb10u2",
          "SSH-2.0-OpenSSH_8.2p1 Ubuntu-4ubuntu0.5"]
  else if s = "http" then
    some ["Apache/2.4.41 (Ubuntu)", "nginx/1.18.0 (Ubuntu)", "Microsoft-IIS/10.0"]
  else if s = "https" then
    some ["Apache/2.4.41 (Ubuntu)", "nginx/1.18.0 (Ubuntu)", "cloudflare"]
  else if s = "ftp" then
    some ["220 ProFTPD 1.3.6 Server", "220 vsFTPd 3.0.3", "220 FileZilla Server"]
  else if s = "smtp" then
    some ["220 mail.example.com ESMTP Postfix",
          "220 mail.example.com ESMTP Exim 4.94.2",
          "220 Exchange ESMTP Server ready"]
  else if s = "mysql" then
    some ["5.7.33-0ubuntu0.18.04.1", "8.0.27-0ubuntu0.20.04.1",
          "MariaDB 10.3.31-0ubuntu0.20.04.1"]
  else none

/-- The fixed common-ports list. -/
def commonPortsList : List ℕ :=
  [20, 21, 22, 23, 25, 53, 80, 110, 111, 135, 139, 143, 443, 445, 993, 995,
   1723, 3306, 3389, 5900, 8080, 8443]

/-- Parsing of an explicit comma-separated port list
(`specificPorts.split(',').map(p => parseInt(p.trim())).filter(...)`). -/
def parseSpecificPorts (s : String) : List ℕ :=
  ((jsSplit s ',').map (fun p => jsParseInt (jsTrim p))).filterMap
    (fun o =>
      match o with
      | some v => if 0 < v ∧ v < 65536 then some v.toNat else none
      | none => none)

/-- The destructuring `const [start, end] = trimmedRange.split('-').map(Number)`:
the first two parsed components, `none` when either is `NaN` (or absent). -/
def rangeBounds (t : String) : Option (ℤ × ℤ) :=
  match (jsSplit t '-').map jsNumber with
  | some s :: some e :: _ => some (s, e)
  | _ => none

/-- Expansion of one comma-separated range component with the safety clamp
(`safeEnd = Math.min(end, start + 100)`); an entry without `-` is a single
`parseInt` port. -/
def rangeExpandClamped (r : String) : List ℕ :=
  let t := jsTrim r
  if strIncludes t "-" then
    match rangeBounds t with
    | some (s, e) =>
        if 0 < s ∧ e < 65536 then
          let safeEnd := min e (s + 100)
          if safeEnd < s then [] else List.range' s.toNat (safeEnd - s + 1).toNat
        else []
    | none => []
  else
    match jsParseInt t with
    | some v => if 0 < v ∧ v < 65536 then [v.toNat] else []
    | none => []

/-- Expansion of one range component without the safety clamp: the set of
ports the specification denotes.  Modelled from the spec's phrase "the union
of ports denoted by the requested port specification", for comparison with
the clamped expansion actually scanned. -/
def rangeExpandFull (r : String) : List ℕ :=
  let t := jsTrim r
  if strIncludes t "-" then
    match rangeBounds t with
    | some (s, e) =>
        if 0 < s ∧ e < 65536 then
          if e < s then [] else List.range' s.toNat (e - s + 1).toNat
        else []
    | none => []
  else
    match jsParseInt t with
    | some v => if 0 < v ∧ v < 65536 then [v.toNat] else []
    | none => []

/-- The concrete port list `simulatePortScan` scans (routes.ts lines 837–872):
common ports, else explicit ports (a non-empty `specificPorts` is truthy),
else clamped range expansion. -/
def portsToScan (portRange specificPorts : String) (scanSpecificPorts commonPortsOnly : Bool) :
    List ℕ :=
  if commonPortsOnly then commonPortsList
  else if scanSpecificPorts ∧ specificPorts ≠ "" then parseSpecificPorts specificPorts
  else ((jsSplit portRange ',').map rangeExpandClamped).flatten

/-- The union of ports denoted by the requested specification (no clamp).
Modelled from the spec for the containment comparison. -/
def specPortUnion (portRange specificPorts : String) (scanSpecificPorts commonPortsOnly : Bool) :
    List ℕ :=
  if commonPortsOnly then commonPortsList
  else if scanSpecificPorts ∧ specificPorts ≠ "" then parseSpecificPorts specificPorts
  else ((jsSplit portRange ',').map rangeExpandFull).flatten

/-- The open-ports loop of `simulatePortScan`: service from the static table,
else `"unknown"` with probability 0.3 (one draw only on a table miss); a
banner only when requested, a service is present and the banner table knows
it. -/
def openLoop (g : ℕ → Frac) (scanVersion : Bool) : List ℕ → ℕ → List PortEntry × ℕ
  | [], k => ([], k)
  | p :: ps, k =>
      let sk : Option String × ℕ :=
        match serviceMap p with
        | some s => (some s, k)
        | none => if (g k).gtTenths 7 then (some "unknown", k + 1) else (none, k + 1)
      let bk : Option String × ℕ :=
        if scanVersion then
          match sk.1 with
          | some s =>
              match bannerMap s with
              | some bs => (randChoice bs (g sk.2), sk.2 + 1)
              | none => (none, sk.2)
          | none => (none, sk.2)
        else (none, sk.2)
      let rest := openLoop g scanVersion ps bk.2
      (⟨p, "open", sk.1, bk.1⟩ :: rest.1, rest.2)

/-- `simulatePortScan` of routes.ts: expand the port specification, shuffle,
emit `floor(0.3·total)` open, `floor(0.4·(total−open))` filtered and the rest
closed entries over the first `total = min(length, 30)` shuffled ports, then
sort ascending by port (`results.sort((a, b) => a.port - b.port)`).  Exact
fractions stand in for the float products `total * 0.3` and `(total-open) * 0.4`. -/
def simulatePortScan (target portRange : String) (scanSpeed : ℕ)
    (scanVersion scanSpecificPorts : Bool) (specificPorts : String)
    (commonPortsOnly : Bool) (g : ℕ → Frac) (k : ℕ) : List PortEntry × ℕ :=
  let ports := portsToScan portRange specificPorts scanSpecificPorts commonPortsOnly
  let totalResults := min ports.length 30
  let openPorts := 3 * totalResults / 10
  let sh := jsShuffle g ports k
  let shuffled := sh.1
  let op := openLoop g scanVersion (shuffled.take openPorts) sh.2
  let filteredPorts := 4 * (totalResults - openPorts) / 10
  let filteredEntries :=
    ((shuffled.drop openPorts).take filteredPorts).map
      (fun p => (⟨p, "filtered", none, none⟩ : PortEntry))
  let closedEntries :=
    ((shuffled.drop (openPorts + filteredPorts)).take
        (totalResults - (openPorts + filteredPorts))).map
      (fun p => (⟨p, "closed", none, none⟩ : PortEntry))
  (List.insertionSort (fun a b => a.port ≤ b.port)
      (op.1 ++ filteredEntries ++ closedEntries),
    op.2)

/-! ## Content discovery (`simulateContentDiscovery`, routes.ts lines 612–752) -/

/-- One returned path entry; `statusCode` is `none` for `NaN` (an unparsable
accepted-status token). -/
structure PathEntry where
  path : String
  statusCode : Option ℤ
  contentType : Option String
  contentLength : Option ℕ
deriving DecidableEq

/-- `statusCodesToInclude.split(',').map(code => parseInt(code.trim()))`:
the caller-supplied accepted-status list, `none` entries being `NaN`. -/
def parseStatusCodes (s : String) : List (Option ℤ) :=
  (jsSplit s ',').map (fun c => jsParseInt (jsTrim c))

/-- The simulated content types. -/
def contentTypes : List String :=
  ["text/html", "application/json", "text/plain", "application/xml",
   "application/javascript", "text/css", "application/pdf"]

/-- The static candidate path list of `simulateContentDiscovery`. -/
def commonPaths : List String :=
  ["/admin", "/login", "/api", "/backup", "/config", "/dashboard", "/dev",
   "/docs", "/images", "/includes", "/js", "/log", "/logs", "/old",
   "/private", "/robots.txt", "/sitemap.xml", "/temp", "/test", "/uploads",
   "/v1", "/v2", "/wp-admin", "/wp-content", "/administrator", "/.git",
   "/.env", "/phpinfo.php", "/info.php", "/server-status", "/console",
   "/api/v1", "/api/users", "/backup.zip", "/config.json", "/debug",
   "/.htpasswd", "/assets"]

/-- `statusCode < 300` on a JS number that may be `NaN` (`NaN < x` is false). -/
def jsLt (sc : Option ℤ) (b : ℤ) : Bool :=
  match sc with
  | some v => decide (v < b)
  | none => false

/-- Base result count by wordlist tier (`Math.floor(Math.random()*n) + m`). -/
def baseResultCount (wordlistType : String) (f : Frac) : ℕ :=
  if wordlistType = "large" then f.mulFloor 15 + 10
  else if wordlistType = "common" then f.mulFloor 10 + 5
  else f.mulFloor 5 + 3

/-- The directory loop of `simulateContentDiscovery`: one entry per selected
directory with a status drawn from the accepted set (or the fallback
`[200, 301, 302, 403]` when it is empty), and — when recursion is enabled and
the draw exceeds 0.7 — one extra subdirectory entry whose status is drawn
from the fixed `[200, 403, 301]` list. -/
def dirLoop (g : ℕ → Frac) (accepted : List (Option ℤ)) (recursive : Bool) :
    List String → List PathEntry → ℕ → List PathEntry × ℕ
  | [], res, k => (res, k)
  | dir :: rest, res, k =>
      let scPool := if 0 < accepted.length then accepted else [some 200, some 301, some 302, some 403]
      let sc : Option ℤ := (randChoice scPool (g k)).join
      let clk : Option ℕ × ℕ :=
        if jsLt sc 300 then (some ((g (k + 1)).mulFloor 50000 + 1000), k + 2) else (none, k + 1)
      let ct : Option String := if jsLt sc 300 then some "text/html" else none
      let e1 : PathEntry := ⟨dir, sc, ct, clk.1⟩
      let step : List PathEntry × ℕ :=
        if recursive then
          if (g clk.2).gtTenths 7 then
            let sub := (randChoice ["config", "includes", "old", "backup", "test"]
              (g (clk.2 + 1))).getD "undefined"
            let sc2 : Option ℤ := (randChoice [some 200, some 403, some 301] (g (clk.2 + 2))).join
            let cl2 := (g (clk.2 + 3)).mulFloor 30000 + 500
            (res ++ [e1, ⟨dir ++ "/" ++ sub, sc2, some "text/html", some cl2⟩], clk.2 + 4)
          else (res ++ [e1], clk.2 + 1)
        else (res ++ [e1], clk.2)
      dirLoop g accepted recursive rest step.1 step.2

/-- The inner extension loop of the file phase: a draw above 0.6 or the empty
extension skips the candidate (the draw is consumed first, as in
`Math.random() > 0.6 || ext === ''`); otherwise a file entry is pushed with a
status from the accepted set (fallback `[200, 404, 403]`) and a content type
from the extension switch (one extra draw only in the `default` arm). -/
def extLoop (g : ℕ → Frac) (accepted : List (Option ℤ)) (file : String) :
    List String → List PathEntry → ℕ → List PathEntry × ℕ
  | [], res, k => (res, k)
  | ext :: rest, res, k =>
      if (g k).gtTenths 6 then extLoop g accepted file rest res (k + 1)
      else if ext = "" then extLoop g accepted file rest res (k + 1)
      else
        let filePath := if ext ≠ "" then file ++ "." ++ ext else file
        let scPool := if 0 < accepted.length then accepted else [some 200, some 404, some 403]
        let sc : Option ℤ := (randChoice scPool (g (k + 1))).join
        let ctk : Option String × ℕ :=
          if ext = "html" then (some "text/html", k + 2)
          else if ext = "js" then (some "application/javascript", k + 2)
          else if ext = "json" then (some "application/json", k + 2)
          else if ext = "xml" then (some "application/xml", k + 2)
          else if ext = "txt" then (some "text/plain", k + 2)
          else if ext = "php" then (some "text/html", k + 2)
          else (randChoice contentTypes (g (k + 2)), k + 3)
        let ct := if jsLt sc 300 then ctk.1 else none
        let clk : Option ℕ × ℕ :=
          if jsLt sc 300 then (some ((g ctk.2).mulFloor 100000 + 500), ctk.2 + 1)
          else (none, ctk.2)
        extLoop g accepted file rest (res ++ [⟨filePath, sc, ct, clk.1⟩]) clk.2

/-- The outer file loop (`for (const file of files)`). -/
def fileLoop (g : ℕ → Frac) (accepted : List (Option ℤ)) (exts : List String) :
    List String → List PathEntry → ℕ → List PathEntry × ℕ
  | [], res, k => (res, k)
  | file :: rest, res, k =>
      let step := extLoop g accepted file exts res k
      fileLoop g accepted exts rest step.1 step.2

/-- `simulateContentDiscovery` of routes.ts: parse the accepted statuses and
extensions, pick the result budget, shuffle the candidate paths twice
(directories, then files), run both loops and truncate to the budget
(`results.slice(0, resultCount)`; `slice(0, resultCount/2)` truncates the
fractional bound, i.e. natural division).  The unused `url` and `threads`
arguments are kept for the source signature. -/
def simulateContentDiscovery (url wordlistType : String) (recursive : Bool)
    (fileExtensions : String) (threads : ℕ) (statusCodesToInclude : String)
    (g : ℕ → Frac) (k : ℕ) : List PathEntry :=
  let accepted := parseStatusCodes statusCodesToInclude
  let rc0 := baseResultCount wordlistType (g k)
  let rc := if recursive then rc0 + rc0 / 2 else rc0
  let sh1 := jsShuffle g commonPaths (k + 1)
  let dirs := sh1.1.take (rc / 2)
  let r1 := dirLoop g accepted recursive dirs [] sh1.2
  let sh2 := jsShuffle g commonPaths r1.2
  let files := sh2.1.take (rc / 2)
  let exts := if fileExtensions ≠ "" then (jsSplit fileExtensions ',').map jsTrim else [""]
  let r2 := fileLoop g accepted exts files r1.1 sh2.2
  r2.1.take rc

/-! Ghost-instrumented copies of the three content-discovery loops: each
produced entry carries a tag, `true` exactly when the entry was pushed by the
recursive secondary check (the `if (recursive && Math.random() > 0.7)` block)
and `false` for the main directory/file generation.  The draws, entries and
counters are identical to the untagged loops; erasing the tags recovers them
(`dirLoopT_erase`, `extLoopT_erase`, `fileLoopT_erase`,
`simulateContentDiscoveryT_erase`). -/

/-- The directory loop, with each entry tagged by its origin. -/
def dirLoopT (g : ℕ → Frac) (accepted : List (Option ℤ)) (recursive : Bool) :
    List String → List (PathEntry × Bool) → ℕ → List (PathEntry × Bool) × ℕ
  | [], res, k => (res, k)
  | dir :: rest, res, k =>
      let scPool := if 0 < accepted.length then accepted else [some 200, some 301, some 302, some 403]
      let sc : Option ℤ := (randChoice scPool (g k)).join
      let clk : Option ℕ × ℕ :=
        if jsLt sc 300 then (some ((g (k + 1)).mulFloor 50000 + 1000), k + 2) else (none, k + 1)
      let ct : Option String := if jsLt sc 300 then some "text/html" else none
      let e1 : PathEntry := ⟨dir, sc, ct, clk.1⟩
      let step : List (PathEntry × Bool) × ℕ :=
        if recursive then
          if (g clk.2).gtTenths 7 then
            let sub := (randChoice ["config", "includes", "old", "backup", "test"]
              (g (clk.2 + 1))).getD "undefined"
            let sc2 : Option ℤ := (randChoice [some 200, some 403, some 301] (g (clk.2 + 2))).join
            let cl2 := (g (clk.2 + 3)).mulFloor 30000 + 500
            (res ++ [(e1, false),
              (⟨dir ++ "/" ++ sub, sc2, some "text/html", some cl2⟩, true)], clk.2 + 4)
          else (res ++ [(e1, false)], clk.2 + 1)
        else (res ++ [(e1, false)], clk.2)
      dirLoopT g accepted recursive rest step.1 step.2

/-- The inner extension loop, with each entry tagged `false` (the file phase
never runs the recursive secondary check). -/
def extLoopT (g : ℕ → Frac) (accepted : List (Option ℤ)) (file : String) :
    List String → List (PathEntry × Bool) → ℕ → List (PathEntry × Bool) × ℕ
  | [], res, k => (res, k)
  | ext :: rest, res, k =>
      if (g k).gtTenths 6 then extLoopT g accepted file rest res (k + 1)
      else if ext = "" then extLoopT g accepted file rest res (k + 1)
      else
        let filePath := if ext ≠ "" then file ++ "." ++ ext else file
        let scPool := if 0 < accepted.length then accepted else [some 200, some 404, some 403]
        let sc : Option ℤ := (randChoice scPool (g (k + 1))).join
        let ctk : Option String × ℕ :=
          if ext = "html" then (some "text/html", k + 2)
          else if ext = "js" then (some "application/javascript", k + 2)
          else if ext = "json" then (some "application/json", k + 2)
          else if ext = "xml" then (some "application/xml", k + 2)
          else if ext = "txt" then (some "text/plain", k + 2)
          else if ext = "php" then (some "text/html", k + 2)
          else (randChoice contentTypes (g (k + 2)), k + 3)
        let ct := if jsLt sc 300 then ctk.1 else none
        let clk : Option ℕ × ℕ :=
          if jsLt sc 300 then (some ((g ctk.2).mulFloor 100000 + 500), ctk.2 + 1)
          else (none, ctk.2)
        extLoopT g accepted file rest (res ++ [(⟨filePath, sc, ct, clk.1⟩, false)]) clk.2

/-- The outer file loop over tagged entries. -/
def fileLoopT (g : ℕ → Frac) (accepted : List (Option ℤ)) (exts : List String) :
    List String → List (PathEntry × Bool) → ℕ → List (PathEntry × Bool) × ℕ
  | [], res, k => (res, k)
  | file :: rest, res, k =>
      let step := extLoopT g accepted file exts res k
      fileLoopT g accepted exts rest step.1 step.2

/-- `simulateContentDiscovery` over tagged entries: identical structure and
draws; `simulateContentDiscoveryT_erase` proves that dropping the tags gives
the source function's output. -/
def simulateContentDiscoveryT (url wordlistType : String) (recursive : Bool)
    (fileExtensions : String) (threads : ℕ) (statusCodesToInclude : String)
    (g : ℕ → Frac) (k : ℕ) : List (PathEntry × Bool) :=
  let accepted := parseStatusCodes statusCodesToInclude
  let rc0 := baseResultCount wordlistType (g k)
  let rc := if recursive then rc0 + rc0 / 2 else rc0
  let sh1 := jsShuffle g commonPaths (k + 1)
  let dirs := sh1.1.take (rc / 2)
  let r1 := dirLoopT g accepted recursive dirs [] sh1.2
  let sh2 := jsShuffle g commonPaths r1.2
  let files := sh2.1.take (rc / 2)
  let exts := if fileExtensions ≠ "" then (jsSplit fileExtensions ',').map jsTrim else [""]
  let r2 := fileLoopT g accepted exts files r1.1 sh2.2
  r2.1.take rc

/-! ## Concrete fixtures used by the witnesses and counterexamples -/

/-- A constant random stream. -/
def constFrac (n d : ℕ) : ℕ → Frac := fun _ => ⟨n, d⟩

/-- A store holding one freshly created scan (id 1). -/
def oneScanStore : Store :=
  (memCreateScan initialStore "example.com" ScanType.subdomain 2).1

/-- The row `DatabaseStorage.updateScanStatus` returns when completing the
scan of `oneScanStore`. -/
def oneScanCompleted : Scan :=
  ⟨1, "example.com", ScanType.subdomain, 2, ScanStatus.completed, 0, some 1, none⟩

/-- Strategy outcomes for a FULL scan whose vulnerability phase throws. -/
def vulnThrowEnv : StrategyOutcomes :=
  ⟨.ok ["a.example.com"], .ok [⟨"id", "number"⟩], .error ()⟩

/-- The store left behind by a FULL scan whose vulnerability phase throws. -/
def vulnThrowStore : Store :=
  processScan vulnThrowEnv (memCreateScan initialStore "example.com" ScanType.full 3).1 1
    ScanType.full

/-- A DNS environment where the NS records reveal one subdomain while every
`lookup` probe fails. -/
def nsOnlyEnv : DnsEnv :=
  ⟨some ["ns.example.com"], none, none, fun _ => none, fun _ => none⟩

/-- A DNS environment where every resolver call throws and every probe
fails. -/
def allFailEnv : DnsEnv :=
  ⟨none, none, none, fun _ => none, fun _ => none⟩

/-! ## Infrastructure lemmas -/

theorem cons_set_perm {α : Type} :
    ∀ (l : List α) (m : ℕ) (b x : α),
      l[m]? = some b → (b :: l.set m x).Perm (x :: l) := by
  intro l
  induction l with
  | nil => intro m b x h; simp at h
  | cons y ys ih =>
    intro m b x h
    cases m with
    | zero =>
      simp at h
      subst h
      exact List.Perm.swap x y ys
    | succ k =>
      simp at h
      have h1 : (b :: y :: ys.set k x).Perm (y :: b :: ys.set k x) := List.Perm.swap y b _
      have h2 : (y :: b :: ys.set k x).Perm (y :: x :: ys) := (ih k b x h).cons y
      have h3 : (y :: x :: ys).Perm (x :: y :: ys) := List.Perm.swap x y ys
      exact h1.trans (h2.trans h3)

theorem set_set_perm {α : Type} :
    ∀ (l : List α) (i j : ℕ) (a b : α),
      l[i]? = some a → l[j]? = some b → ((l.set i b).set j a).Perm l := by
  intro l
  induction l with
  | nil => intro i j a b hi _; simp at hi
  | cons y ys ih =>
    intro i j a b hi hj
    cases i with
    | zero =>
      simp at hi
      subst hi
      cases j with
      | zero =>
        simp at hj
        subst hj
        simp
      | succ m =>
        simp at hj
        exact cons_set_perm ys m b y hj
    | succ n =>
      simp at hi
      cases j with
      | zero =>
        simp at hj
        subst hj
        exact cons_set_perm ys n a y hi
      | succ m =>
        simp at hj
        exact ((ih n m a b hi hj).cons y)

theorem listSwap_perm {α : Type} (l : List α) (i j : ℕ) : (listSwap l i j).Perm l := by
  unfold listSwap
  split
  · next a b hi hj =>
    rw [List.get?_eq_getElem?] at hi hj
    exact set_set_perm l i j a b hi hj
  · exact List.Perm.refl l

theorem fyLoop_perm {α : Type} (g : ℕ → Frac) :
    ∀ (i : ℕ) (l : List α) (k : ℕ), ((fyLoop g l k i).1).Perm l := by
  intro i
  induction i with
  | zero => intro l k; exact List.Perm.refl l
  | succ n ih =>
    intro l k
    exact (ih _ _).trans (listSwap_perm l (n + 1) ((g k).mulFloor (n + 2)))

theorem jsShuffle_perm {α : Type} (g : ℕ → Frac) (l : List α) (k : ℕ) :
    ((jsShuffle g l k).1).Perm l :=
  fyLoop_perm g (l.length - 1) l k

theorem batchedRun_eq_batchLoop (acc : List String) (rs : List (Option String)) :
    batchedRun acc rs = batchLoop acc rs := by
  have H : ∀ (n : ℕ) (rs : List (Option String)) (acc : List String),
      rs.length ≤ n → batchedRun acc rs = batchLoop acc rs := by
    intro n
    induction n with
    | zero =>
      intro rs acc h
      have : rs = [] := List.eq_nil_of_length_eq_zero (Nat.le_zero.mp h)
      subst this
      rw [batchedRun]
      simp [batchLoop, processBatchResults]
    | succ n ih =>
      intro rs acc h
      rw [batchedRun]
      split
      · next he => subst he; simp [batchLoop, processBatchResults]
      · next he =>
        have hlen : (rs.drop 10).length ≤ n := by
          have : 0 < rs.length := List.length_pos.mpr he
          simp only [List.length_drop]
          omega
        rw [ih _ _ hlen]
        show batchLoop (processBatchResults acc (rs.take 10)) (rs.drop 10) = batchLoop acc rs
        unfold batchLoop processBatchResults
        rw [← List.foldl_append]
        rw [List.take_append_drop]
  exact H rs.length rs acc le_rfl

theorem mem_processBatchResults (rs : List (Option String)) :
    ∀ (acc : List String) (y : String),
      y ∈ processBatchResults acc rs ↔ y ∈ acc ∨ some y ∈ rs := by
  induction rs with
  | nil => intro acc y; simp [processBatchResults]
  | cons r rs ih =>
    intro acc y
    cases r with
    | none =>
      have hstep : processBatchResults acc (none :: rs) = processBatchResults acc rs := rfl
      rw [hstep, ih]
      simp
    | some s =>
      have hstep : processBatchResults acc (some s :: rs)
          = processBatchResults (if s ∉ acc then acc ++ [s] else acc) rs := rfl
      rw [hstep, ih]
      by_cases hs : s ∈ acc
      · rw [if_neg (by simpa using hs)]
        constructor
        · rintro (h | h)
          · exact Or.inl h
          · exact Or.inr (List.mem_cons_of_mem _ h)
        · rintro (h | h)
          · exact Or.inl h
          · rcases List.mem_cons.mp h with he | hm
            · have hy : y = s := Option.some.inj he
              subst hy
              exact Or.inl hs
            · exact Or.inr hm
      · rw [if_pos hs]
        constructor
        · rintro (h | h)
          · rcases List.mem_append.mp h with ha | hb
            · exact Or.inl ha
            · have hy : y = s := by simpa using hb
              subst hy
              exact Or.inr (List.mem_cons.mpr (Or.inl rfl))
          · exact Or.inr (List.mem_cons_of_mem _ h)
        · rintro (h | h)
          · exact Or.inl (List.mem_append_left _ h)
          · rcases List.mem_cons.mp h with he | hm
            · have hy : y = s := Option.some.inj he
              subst hy
              exact Or.inl (List.mem_append_right _ (by simp))
            · exact Or.inr hm

theorem probeOutcome_eq_some (env : DnsEnv) (c y : String) :
    probeOutcome env c = some y ↔ c = y ∧ env.lookup c ≠ none := by
  unfold probeOutcome
  cases h : env.lookup c <;> simp [h, eq_comm]

theorem foldl_preserve {α β : Type} (P : β → Prop) (f : β → α → β)
    (hf : ∀ b a, P b → P (f b a)) : ∀ (l : List α) (b : β), P b → P (l.foldl f b) := by
  intro l
  induction l with
  | nil => intro b hb; exact hb
  | cons x xs ih => intro b hb; exact ih _ (hf b x hb)

theorem nodup_append_single {α : Type} {x : α} {l : List α} (hx : x ∉ l)
    (hl : l.Nodup) : (l ++ [x]).Nodup := by
  simpa [List.concat_eq_append] using List.Nodup.concat hx hl

theorem dnsAdd_nodup (domain : String) :
    ∀ (acc : List String) (x : String), acc.Nodup → (dnsAdd domain acc x).Nodup := by
  intro acc x h
  unfold dnsAdd
  split
  · next hc => exact nodup_append_single hc.1 h
  · exact h

theorem txtStep_nodup (env : DnsEnv) (domain : String) :
    ∀ (acc : List String) (rec : List String), acc.Nodup → (txtStep env domain acc rec).Nodup := by
  intro acc rec h
  unfold txtStep
  dsimp only
  split
  · split
    · apply foldl_preserve List.Nodup _ ?_ _ _ h
      intro b a hb
      dsimp only
      split
      · next hc => exact nodup_append_single hc.2 hb
      · exact hb
    · exact h
  · exact h

theorem processBatchResults_nodup (rs : List (Option String)) (acc : List String)
    (h : acc.Nodup) : (processBatchResults acc rs).Nodup := by
  unfold processBatchResults
  apply foldl_preserve List.Nodup _ ?_ _ _ h
  intro b r hb
  cases r with
  | none => exact hb
  | some s =>
    dsimp only
    split
    · next hc => exact nodup_append_single hc hb
    · exact hb

theorem dnsPhase_nodup (env : DnsEnv) (domain : String) (acc : List String)
    (h : acc.Nodup) : (dnsPhase env domain acc).Nodup := by
  unfold dnsPhase
  have h1 : (match env.ns with
      | some l => l.foldl (dnsAdd domain) acc
      | none => acc).Nodup := by
    cases env.ns with
    | some l => exact foldl_preserve List.Nodup _ (dnsAdd_nodup domain) l acc h
    | none => exact h
  have h2 : (match env.mx with
      | some l => l.foldl (dnsAdd domain) (match env.ns with
          | some l => l.foldl (dnsAdd domain) acc
          | none => acc)
      | none => (match env.ns with
          | some l => l.foldl (dnsAdd domain) acc
          | none => acc)).Nodup := by
    cases env.mx with
    | some l => exact foldl_preserve List.Nodup _ (dnsAdd_nodup domain) l _ h1
    | none => exact h1
  cases env.txt with
  | some recs => exact foldl_preserve List.Nodup _ (txtStep_nodup env domain) recs _ h2
  | none => exact h2

theorem subPhase12_nodup (env : DnsEnv) (domain : String) (t : TechArg) (w : String) :
    (subPhase12 env domain t w).Nodup := by
  have h1 : (if useDNS t then dnsPhase env domain [] else []).Nodup := by
    split
    · exact dnsPhase_nodup env domain [] List.nodup_nil
    · exact List.nodup_nil
  unfold subPhase12
  dsimp only
  by_cases hb : useBruteForce t = true
  · rw [if_pos hb]
    exact processBatchResults_nodup _ _ h1
  · rw [if_neg hb]
    exact h1

/-- Claim C7: the sequence of fully-qualified subdomain strings returned by
the subdomain enumeration strategy contains no duplicates, whichever phases
discovered them. -/
theorem c7_subdomain_output_nodup (env : DnsEnv) (domain : String) (t : TechArg)
    (w : String) : (performSubdomainEnumeration env domain t w).subdomains.Nodup := by
  have h2 := subPhase12_nodup env domain t w
  dsimp only [performSubdomainEnumeration]
  by_cases hp : usePermutations t = true ∧ 0 < (subPhase12 env domain t w).length
  · rw [if_pos hp]
    exact processBatchResults_nodup _ _ h2
  · rw [if_neg hp]
    exact h2

/-- Claim C8: in the brute-force (and permutation) batching loop, a probe
that fails (`lookup` throws) contributes only an absent outcome and never
aborts the batch: the list of probe outcomes has one slot per candidate, and
a name is merged exactly when it was already present or is a candidate whose
own probe resolved — independently of every other probe's failure. -/
theorem c8_probe_failure_isolated (env : DnsEnv) (cands : List String) (acc : List String) :
    (cands.map (probeOutcome env)).length = cands.length ∧
    ∀ y : String, y ∈ batchLoop acc (cands.map (probeOutcome env)) ↔
      y ∈ acc ∨ (y ∈ cands ∧ env.lookup y ≠ none) := by
  refine ⟨List.length_map _ _, fun y => ?_⟩
  unfold batchLoop
  rw [mem_processBatchResults]
  constructor
  · rintro (h | h)
    · exact Or.inl h
    · rcases List.mem_map.mp h with ⟨c, hc, hpc⟩
      rcases (probeOutcome_eq_some env c y).mp hpc with ⟨rfl, hl⟩
      exact Or.inr ⟨hc, hl⟩
  · rintro (h | ⟨hy, hl⟩)
    · exact Or.inl h
    · exact Or.inr (List.mem_map.mpr ⟨y, hy, (probeOutcome_eq_some env y y).mpr ⟨rfl, hl⟩⟩)

/-- Claim C9: with `wordlist == "custom"` and the techniques argument given
as a prefix array, every technique toggle compares the array against a string
and is disabled, so the strategy returns the empty list and never probes any
of the supplied prefixes. -/
theorem c9_custom_wordlist_overload_returns_empty (env : DnsEnv) (domain : String)
    (l : List String) :
    performSubdomainEnumeration env domain (TechArg.arr l) "custom" =
      ⟨[], [], [], []⟩ := rfl

/-- Claim C3 (counterexample): with NS records revealing one subdomain and
every probe failing, the brute-force phase resolves nothing, yet the
permutation phase still generates and probes candidates — the guard tests the
merged DNS+brute-force set, not the brute-force result set. -/
theorem c3_counterexample :
    (performSubdomainEnumeration nsOnlyEnv "example.com" (TechArg.str "all")
        "default").bruteResolved = [] ∧
    (performSubdomainEnumeration nsOnlyEnv "example.com" (TechArg.str "all")
        "default").permProbed ≠ [] := by decide

/-- Claim C3 (amended): the permutation phase runs only when the merged
result set of the DNS and brute-force phases is non-empty; whenever that
merged set is empty, no permutation candidate is generated or resolved and
the returned list is empty. -/
theorem c3_perm_phase_guard (env : DnsEnv) (domain : String) (t : TechArg) (w : String)
    (h : subPhase12 env domain t w = []) :
    (performSubdomainEnumeration env domain t w).permProbed = [] ∧
    (performSubdomainEnumeration env domain t w).subdomains = [] := by
  dsimp only [performSubdomainEnumeration]
  rw [h]
  simp

/-- Witness for `c3_perm_phase_guard`: all resolvers throwing and all probes
failing yield an empty phase-1/2 set and hence no permutation probing. -/
theorem c3_perm_phase_guard_witness :
    (performSubdomainEnumeration allFailEnv "example.com" (TechArg.str "all")
        "default").permProbed = [] ∧
    (performSubdomainEnumeration allFailEnv "example.com" (TechArg.str "all")
        "default").subdomains = [] :=
  c3_perm_phase_guard allFailEnv "example.com" (TechArg.str "all") "default" (by decide)

/-! ## Store lemmas -/

theorem find?_map_upd (l : List Scan) (id : ℕ) (upd : Scan) (hu : upd.id = id) :
    ∀ (scan : Scan), l.find? (fun s => decide (s.id = id)) = some scan →
      (l.map (fun s => if s.id = id then upd else s)).find?
        (fun s => decide (s.id = id)) = some upd := by
  induction l with
  | nil => intro scan hf; simp at hf
  | cons y ys ih =>
    intro scan hf
    by_cases hy : y.id = id
    · rw [List.map_cons, if_pos hy, List.find?_cons_of_pos _ (by simp [hu])]
    · rw [List.find?_cons_of_neg _ (by simp [hy])] at hf
      rw [List.map_cons, if_neg hy, List.find?_cons_of_neg _ (by simp [hy])]
      exact ih scan hf

theorem memGetScan_updateStatus (st : Store) (id : ℕ) (status : ScanStatus) (s : Scan)
    (h : memGetScan st id = some s) :
    memGetScan (memUpdateScanStatus st id status).1 id =
      some { s with
        status := status
        completedAt :=
          if status = ScanStatus.completed then some st.time else s.completedAt } := by
  unfold memGetScan at h ⊢
  unfold memUpdateScanStatus
  rw [h]
  dsimp only
  apply find?_map_upd _ _ _ ?_ _ h
  have := List.find?_some h
  simpa using this

theorem memGetScan_updateFindings (st : Store) (id : ℕ) (f : Option Findings) (s : Scan)
    (h : memGetScan st id = some s) :
    memGetScan (memUpdateScanFindings st id f).1 id = some { s with findings := f } := by
  unfold memGetScan at h ⊢
  unfold memUpdateScanFindings
  rw [h]
  dsimp only
  apply find?_map_upd _ _ _ ?_ _ h
  have := List.find?_some h
  simpa using this

theorem scans_storeSub (l : List String) (st : Store) (i : ℕ) :
    (storeSubdomainResults st i l).scans = st.scans := by
  unfold storeSubdomainResults
  exact foldl_preserve (fun s2 : Store => s2.scans = st.scans)
    (fun s d =>
      (memCreateScanResult s i ResultType.subdomain (some Severity.info)
        (Details.subdomainD d)).1)
    (fun b a hb => hb) l st rfl

theorem scans_storeParam (l : List ParamInfo) (st : Store) (i : ℕ) :
    (storeParameterResults st i l).scans = st.scans := by
  unfold storeParameterResults
  exact foldl_preserve (fun s2 : Store => s2.scans = st.scans)
    (fun s p =>
      (memCreateScanResult s i ResultType.parameter (some Severity.info)
        (Details.parameterD p.name p.ptype)).1)
    (fun b a hb => hb) l st rfl

theorem results_updateStatus (st : Store) (id : ℕ) (status : ScanStatus) :
    (memUpdateScanStatus st id status).1.results = st.results := by
  unfold memUpdateScanStatus
  split <;> rfl

theorem mono_storeSub (l : List String) (st : Store) (i : ℕ) (r : ScanResult)
    (h : r ∈ st.results) : r ∈ (storeSubdomainResults st i l).results := by
  unfold storeSubdomainResults
  exact foldl_preserve (fun s2 : Store => r ∈ s2.results)
    (fun s d =>
      (memCreateScanResult s i ResultType.subdomain (some Severity.info)
        (Details.subdomainD d)).1)
    (fun b a hb => List.mem_append_left _ hb) l st h

theorem mono_storeParam (l : List ParamInfo) (st : Store) (i : ℕ) (r : ScanResult)
    (h : r ∈ st.results) : r ∈ (storeParameterResults st i l).results := by
  unfold storeParameterResults
  exact foldl_preserve (fun s2 : Store => r ∈ s2.results)
    (fun s p =>
      (memCreateScanResult s i ResultType.parameter (some Severity.info)
        (Details.parameterD p.name p.ptype)).1)
    (fun b a hb => List.mem_append_left _ hb) l st h

theorem mem_storeSub :
    ∀ (subs : List String) (st : Store) (i : ℕ) (s : String), s ∈ subs →
      ∃ r ∈ (storeSubdomainResults st i subs).results,
        r.scanId = i ∧ r.resultType = ResultType.subdomain ∧
          r.details = Details.subdomainD s := by
  intro subs
  induction subs with
  | nil => intro st i s h; simp at h
  | cons x xs ih =>
    intro st i s h
    have hstep : storeSubdomainResults st i (x :: xs)
        = storeSubdomainResults
            (memCreateScanResult st i ResultType.subdomain (some Severity.info)
              (Details.subdomainD x)).1 i xs := rfl
    rcases List.mem_cons.mp h with rfl | hx
    · refine ⟨⟨st.nextResultId, i, ResultType.subdomain, some Severity.info,
        Details.subdomainD s, st.time⟩, ?_, rfl, rfl, rfl⟩
      rw [hstep]
      apply mono_storeSub
      exact List.mem_append_right _ (by simp [memCreateScanResult])
    · rw [hstep]
      exact ih _ i s hx

theorem mem_storeParam :
    ∀ (ps : List ParamInfo) (st : Store) (i : ℕ) (p : ParamInfo), p ∈ ps →
      ∃ r ∈ (storeParameterResults st i ps).results,
        r.scanId = i ∧ r.resultType = ResultType.parameter ∧
          r.details = Details.parameterD p.name p.ptype := by
  intro ps
  induction ps with
  | nil => intro st i p h; simp at h
  | cons x xs ih =>
    intro st i p h
    have hstep : storeParameterResults st i (x :: xs)
        = storeParameterResults
            (memCreateScanResult st i ResultType.parameter (some Severity.info)
              (Details.parameterD x.name x.ptype)).1 i xs := rfl
    rcases List.mem_cons.mp h with rfl | hx
    · refine ⟨⟨st.nextResultId, i, ResultType.parameter, some Severity.info,
        Details.parameterD p.name p.ptype, st.time⟩, ?_, rfl, rfl, rfl⟩
      rw [hstep]
      apply mono_storeParam
      exact List.mem_append_right _ (by simp [memCreateScanResult])
    · rw [hstep]
      exact ih _ i p hx

theorem mem_memGetScanResults (st : Store) (i : ℕ) (r : ScanResult) :
    r ∈ memGetScanResults st i ↔ r ∈ st.results ∧ r.scanId = i := by
  unfold memGetScanResults
  rw [(List.perm_insertionSort _ _).mem_iff, List.mem_filter]
  simp

/-- Claim C1 (counterexample): FAILED is a terminal status, yet
`DatabaseStorage.updateScanStatus` stores a null completed timestamp for it —
the timestamp is set only for COMPLETED, not for every terminal status. -/
theorem c1_counterexample :
    isTerminal ScanStatus.failed = true ∧
    (dbUpdateScanStatus oneScanStore 1 ScanStatus.failed).2.map Scan.completedAt =
      some none := by decide

/-- Claim C1 (amended): for every store, scan id and status,
`DatabaseStorage.updateScanStatus` sets the completed timestamp exactly when
the new status is COMPLETED (any other status, including the terminal FAILED
and CANCELLED, stores null), so the returned scan's completed timestamp is
non-null iff the new status is COMPLETED. -/
theorem c1_db_completedAt_iff_completed (st : Store) (id : ℕ) (status : ScanStatus)
    (scan : Scan) (h : (dbUpdateScanStatus st id status).2 = some scan) :
    scan.completedAt ≠ none ↔ status = ScanStatus.completed := by
  unfold dbUpdateScanStatus at h
  cases hf : st.scans.find? (fun s => decide (s.id = id)) with
  | none => rw [hf] at h; simp at h
  | some s =>
    rw [hf] at h
    dsimp only at h
    have he := (Option.some.inj h).symm
    subst he
    by_cases hc : status = ScanStatus.completed <;> simp [hc]

/-- Witness for `c1_db_completedAt_iff_completed` at a concrete store and the
COMPLETED status. -/
theorem c1_db_completedAt_iff_completed_witness :
    oneScanCompleted.completedAt ≠ none ↔ ScanStatus.completed = ScanStatus.completed :=
  c1_db_completedAt_iff_completed oneScanStore 1 ScanStatus.completed oneScanCompleted
    (by decide)

/-- Claim C2 (counterexample): a FULL scan whose vulnerability phase throws
ends FAILED with a null completed timestamp (the claim asserts the timestamp
is set), while the findings persisted before the failure survive. -/
theorem c2_counterexample :
    (memGetScan vulnThrowStore 1).map Scan.status = some ScanStatus.failed ∧
    (memGetScan vulnThrowStore 1).map Scan.completedAt = some none ∧
    memGetScanResults vulnThrowStore 1 ≠ [] := by decide

/-- Claim C2 (amended): when the vulnerability phase of a FULL scan throws,
`processScan` transitions the scan directly to FAILED — its completed
timestamp stays null, since `updateScanStatus` stamps it only for COMPLETED —
and every SUBDOMAIN and PARAMETER finding persisted before the failure is
still stored and returned by `getScanResults` (no rollback). -/
theorem c2_failed_scan_keeps_findings (env : StrategyOutcomes) (target : String)
    (depth : ℕ) (ss : List String) (ps : List ParamInfo)
    (hs : env.subs = .ok ss) (hp : env.params = .ok ps) (hv : env.vulns = .error ()) :
    (memGetScan (processScan env (memCreateScan initialStore target ScanType.full depth).1
        1 ScanType.full) 1).map Scan.status = some ScanStatus.failed ∧
    (memGetScan (processScan env (memCreateScan initialStore target ScanType.full depth).1
        1 ScanType.full) 1).map Scan.completedAt = some none ∧
    (∀ s ∈ ss, ∃ r ∈ memGetScanResults
        (processScan env (memCreateScan initialStore target ScanType.full depth).1
          1 ScanType.full) 1,
        r.resultType = ResultType.subdomain ∧ r.details = Details.subdomainD s) ∧
    (∀ p ∈ ps, ∃ r ∈ memGetScanResults
        (processScan env (memCreateScan initialStore target ScanType.full depth).1
          1 ScanType.full) 1,
        r.resultType = ResultType.parameter ∧
          r.details = Details.parameterD p.name p.ptype) := by
  set st0 : Store := (memCreateScan initialStore target ScanType.full depth).1 with hst0
  set scan0 : Scan := ⟨1, target, ScanType.full, depth, ScanStatus.pending, 0, none, none⟩
    with hscan0
  have hg0 : memGetScan st0 1 = some scan0 := rfl
  set st1 : Store := (memUpdateScanStatus st0 1 ScanStatus.inProgress).1 with hst1
  have hg1 : memGetScan st1 1 =
      some { scan0 with status := ScanStatus.inProgress, completedAt := none } := by
    simpa using memGetScan_updateStatus st0 1 ScanStatus.inProgress scan0 hg0
  set st2 : Store := storeParameterResults (storeSubdomainResults st1 1 ss) 1 ps with hst2
  have hbody : processScanBody env st1 1 ScanType.full = .error st2 := by
    unfold processScanBody
    rw [hs, hp, hv]
  have hrun : processScan env st0 1 ScanType.full =
      (memUpdateScanStatus st2 1 ScanStatus.failed).1 := by
    unfold processScan
    dsimp only
    rw [← hst1, hbody]
  have hg2 : memGetScan st2 1 =
      some { scan0 with status := ScanStatus.inProgress, completedAt := none } := by
    unfold memGetScan
    rw [hst2, scans_storeParam, scans_storeSub]
    exact hg1
  have hgfin : memGetScan (processScan env st0 1 ScanType.full) 1 =
      some { scan0 with status := ScanStatus.failed, completedAt := none } := by
    rw [hrun]
    simpa using memGetScan_updateStatus st2 1 ScanStatus.failed _ hg2
  have hres : (processScan env st0 1 ScanType.full).results = st2.results := by
    rw [hrun, results_updateStatus]
  refine ⟨by rw [hgfin]; rfl, by rw [hgfin]; rfl, ?_, ?_⟩
  · intro s hsub
    rcases mem_storeSub ss (st1) 1 s hsub with ⟨r, hrmem, hid, hrt, hrd⟩
    refine ⟨r, ?_, hrt, hrd⟩
    rw [mem_memGetScanResults, hres]
    exact ⟨mono_storeParam ps _ 1 r hrmem, hid⟩
  · intro p hpar
    rcases mem_storeParam ps (storeSubdomainResults st1 1 ss) 1 p hpar
      with ⟨r, hrmem, hid, hrt, hrd⟩
    refine ⟨r, ?_, hrt, hrd⟩
    rw [mem_memGetScanResults, hres]
    exact ⟨hrmem, hid⟩

/-- Witness for `c2_failed_scan_keeps_findings` at concrete strategy
outcomes. -/
theorem c2_failed_scan_keeps_findings_witness :
    (memGetScan (processScan vulnThrowEnv
        (memCreateScan initialStore "example.com" ScanType.full 3).1 1 ScanType.full)
        1).map Scan.status = some ScanStatus.failed ∧
    (memGetScan (processScan vulnThrowEnv
        (memCreateScan initialStore "example.com" ScanType.full 3).1 1 ScanType.full)
        1).map Scan.completedAt = some none ∧
    (∀ s ∈ ["a.example.com"], ∃ r ∈ memGetScanResults
        (processScan vulnThrowEnv
          (memCreateScan initialStore "example.com" ScanType.full 3).1 1 ScanType.full) 1,
        r.resultType = ResultType.subdomain ∧ r.details = Details.subdomainD s) ∧
    (∀ p ∈ [(⟨"id", "number"⟩ : ParamInfo)], ∃ r ∈ memGetScanResults
        (processScan vulnThrowEnv
          (memCreateScan initialStore "example.com" ScanType.full 3).1 1 ScanType.full) 1,
        r.resultType = ResultType.parameter ∧
          r.details = Details.parameterD p.name p.ptype) :=
  c2_failed_scan_keeps_findings vulnThrowEnv "example.com" 3 ["a.example.com"]
    [⟨"id", "number"⟩] rfl rfl rfl

/-- Claim C10: for a scan type outside the four handled by the dispatch
switch, `processScan` persists no finding, writes the empty findings summary
and transitions the scan to COMPLETED. -/
theorem c10_unsupported_type_completes_empty (env : StrategyOutcomes) (target : String)
    (depth : ℕ) (t : ScanType)
    (ht : t ≠ ScanType.subdomain ∧ t ≠ ScanType.parameter ∧
      t ≠ ScanType.vulnerability ∧ t ≠ ScanType.full) :
    memGetScanResults (processScan env (memCreateScan initialStore target t depth).1 1 t)
        1 = [] ∧
    (memGetScan (processScan env (memCreateScan initialStore target t depth).1 1 t)
        1).map Scan.findings = some (some Findings.emptyObj) ∧
    (memGetScan (processScan env (memCreateScan initialStore target t depth).1 1 t)
        1).map Scan.status = some ScanStatus.completed := by
  cases t with
  | subdomain => exact absurd rfl ht.1
  | parameter => exact absurd rfl ht.2.1
  | vulnerability => exact absurd rfl ht.2.2.1
  | full => exact absurd rfl ht.2.2.2
  | content => exact ⟨rfl, rfl, rfl⟩
  | portScan => exact ⟨rfl, rfl, rfl⟩
  | techDetection => exact ⟨rfl, rfl, rfl⟩

/-! ## Port scan lemmas -/

theorem mulFloor_lt {f : Frac} (hf : f.Valid) {n : ℕ} (hn : 0 < n) : f.mulFloor n < n := by
  unfold Frac.mulFloor
  have hden : 0 < f.den := lt_of_le_of_lt (Nat.zero_le _) hf
  rw [Nat.div_lt_iff_lt_mul hden]
  rw [Nat.mul_comm n f.den]
  exact Nat.mul_lt_mul_of_lt_of_le hf (le_refl n) hn

theorem randChoice_mem {α : Type} {l : List α} {f : Frac} (hf : f.Valid) (hl : l ≠ []) :
    ∃ a ∈ l, randChoice l f = some a := by
  unfold randChoice
  have hlen : 0 < l.length := List.length_pos.mpr hl
  have hidx : f.mulFloor l.length < l.length := mulFloor_lt hf hlen
  rw [List.get?_eq_get hidx]
  exact ⟨l.get ⟨_, hidx⟩, List.get_mem l _ hidx, rfl⟩

theorem openLoop_mem (g : ℕ → Frac) (sv : Bool) :
    ∀ (l : List ℕ) (k : ℕ) (e : PortEntry), e ∈ (openLoop g sv l k).1 →
      e.state = "open" ∧ e.port ∈ l := by
  intro l
  induction l with
  | nil => intro k e h; simp [openLoop] at h
  | cons p ps ih =>
    intro k e h
    simp only [openLoop, List.mem_cons] at h
    rcases h with rfl | hm
    · exact ⟨rfl, List.mem_cons_self p ps⟩
    · obtain ⟨h1, h2⟩ := ih _ e hm
      exact ⟨h1, List.mem_cons_of_mem _ h2⟩

theorem rangeExpandClamped_subset (r : String) :
    rangeExpandClamped r ⊆ rangeExpandFull r := by
  unfold rangeExpandClamped rangeExpandFull
  dsimp only
  split
  · cases hb : rangeBounds (jsTrim r) with
    | none => simp
    | some se =>
      obtain ⟨s, e⟩ := se
      dsimp only
      by_cases hc : 0 < s ∧ e < 65536
      · rw [if_pos hc, if_pos hc]
        by_cases hm : min e (s + 100) < s
        · rw [if_pos hm]
          simp
        · rw [if_neg hm]
          by_cases he : e < s
          · exfalso
            omega
          · rw [if_neg he]
            intro x hx
            rw [List.mem_range'_1] at hx ⊢
            omega
      · rw [if_neg hc, if_neg hc]
        exact fun x hx => hx
  · exact fun x hx => hx

theorem portsToScan_subset_spec (pr sp : String) (ssp cpo : Bool) :
    portsToScan pr sp ssp cpo ⊆ specPortUnion pr sp ssp cpo := by
  unfold portsToScan specPortUnion
  by_cases h1 : cpo = true
  · rw [if_pos h1, if_pos h1]
    exact fun x hx => hx
  · rw [if_neg h1, if_neg h1]
    by_cases h2 : ssp = true ∧ sp ≠ ""
    · rw [if_pos h2, if_pos h2]
      exact fun x hx => hx
    · rw [if_neg h2, if_neg h2]
      intro x hx
      rw [List.mem_flatten] at hx ⊢
      rcases hx with ⟨l, hl, hxl⟩
      rcases List.mem_map.mp hl with ⟨rstr, hr, rfl⟩
      exact ⟨rangeExpandFull rstr, List.mem_map.mpr ⟨rstr, hr, rfl⟩,
        rangeExpandClamped_subset rstr hxl⟩

/-- Claim C6: the port scan strategy's output is sorted ascending by port
number, every entry's state is one of the three literal states, and every
entry's port belongs to the union of ports denoted by the requested port
specification. -/
theorem c6_portScan_output_shape (target portRange : String) (scanSpeed : ℕ)
    (scanVersion scanSpecificPorts : Bool) (specificPorts : String)
    (commonPortsOnly : Bool) (g : ℕ → Frac) (k : ℕ) :
    List.Sorted (fun a b => a.port ≤ b.port)
      (simulatePortScan target portRange scanSpeed scanVersion scanSpecificPorts
        specificPorts commonPortsOnly g k).1 ∧
    ∀ e ∈ (simulatePortScan target portRange scanSpeed scanVersion scanSpecificPorts
        specificPorts commonPortsOnly g k).1,
      (e.state = "open" ∨ e.state = "closed" ∨ e.state = "filtered") ∧
        e.port ∈ specPortUnion portRange specificPorts scanSpecificPorts commonPortsOnly := by
  haveI htot : IsTotal PortEntry (fun a b => a.port ≤ b.port) :=
    ⟨fun a b => Nat.le_total a.port b.port⟩
  haveI htrans : IsTrans PortEntry (fun a b => a.port ≤ b.port) :=
    ⟨fun a b c hab hbc => le_trans hab hbc⟩
  unfold simulatePortScan
  dsimp only
  constructor
  · exact List.sorted_insertionSort _ _
  · intro e he
    have he' := (List.perm_insertionSort _ _).subset he
    have hshuf : (jsShuffle g
        (portsToScan portRange specificPorts scanSpecificPorts commonPortsOnly) k).1 ⊆
          specPortUnion portRange specificPorts scanSpecificPorts commonPortsOnly :=
      fun x hx =>
        portsToScan_subset_spec portRange specificPorts scanSpecificPorts commonPortsOnly
          ((jsShuffle_perm g _ k).subset hx)
    rcases List.mem_append.mp he' with hoc | hcl
    · rcases List.mem_append.mp hoc with hop | hfl
      · obtain ⟨hs, hpmem⟩ := openLoop_mem g scanVersion _ _ e hop
        exact ⟨Or.inl hs, hshuf (List.take_subset _ _ hpmem)⟩
      · rcases List.mem_map.mp hfl with ⟨p, hp, rfl⟩
        refine ⟨Or.inr (Or.inr rfl), hshuf ?_⟩
        exact List.drop_subset _ _ (List.take_subset _ _ hp)
    · rcases List.mem_map.mp hcl with ⟨p, hp, rfl⟩
      refine ⟨Or.inr (Or.inl rfl), hshuf ?_⟩
      exact List.drop_subset _ _ (List.take_subset _ _ hp)

/-- Claim C5: the ad-hoc port scan invoked with the explicit port spec
`"22,80,443"`, any speed and version detection disabled returns exactly 3
entries, exactly one per requested port (the sorted port column is
`[22, 80, 443]`), each in a valid state. -/
theorem c5_three_specific_ports (scanSpeed : ℕ) (g : ℕ → Frac) (k : ℕ) :
    (simulatePortScan "10.0.0.1" "1-1000" scanSpeed false true "22,80,443" false g
        k).1.map PortEntry.port = [22, 80, 443] ∧
    (simulatePortScan "10.0.0.1" "1-1000" scanSpeed false true "22,80,443" false g
        k).1.length = 3 ∧
    ∀ e ∈ (simulatePortScan "10.0.0.1" "1-1000" scanSpeed false true "22,80,443" false g
        k).1, e.state = "open" ∨ e.state = "closed" ∨ e.state = "filtered" := by
  haveI htot : IsTotal PortEntry (fun a b => a.port ≤ b.port) :=
    ⟨fun a b => Nat.le_total a.port b.port⟩
  haveI htrans : IsTrans PortEntry (fun a b => a.port ≤ b.port) :=
    ⟨fun a b c hab hbc => le_trans hab hbc⟩
  have hperm : ((jsShuffle g [22, 80, 443] k).1).Perm [22, 80, 443] :=
    jsShuffle_perm g [22, 80, 443] k
  have hlen : ((jsShuffle g [22, 80, 443] k).1).length = 3 := hperm.length_eq
  obtain ⟨a, b, c, habc⟩ := List.length_eq_three.mp hlen
  have hexp : (simulatePortScan "10.0.0.1" "1-1000" scanSpeed false true "22,80,443"
      false g k).1 =
      List.insertionSort (fun x y => x.port ≤ y.port)
        ((((jsShuffle g [22, 80, 443] k).1).take 1).map
            (fun p => (⟨p, "filtered", none, none⟩ : PortEntry)) ++
          ((((jsShuffle g [22, 80, 443] k).1).drop 1).take 2).map
            (fun p => (⟨p, "closed", none, none⟩ : PortEntry))) := rfl
  rw [hexp, habc]
  have hentries : (([a, b, c].take 1).map
        (fun p => (⟨p, "filtered", none, none⟩ : PortEntry)) ++
      (([a, b, c].drop 1).take 2).map
        (fun p => (⟨p, "closed", none, none⟩ : PortEntry))) =
      [⟨a, "filtered", none, none⟩, ⟨b, "closed", none, none⟩,
        ⟨c, "closed", none, none⟩] := rfl
  rw [hentries]
  have hpermr := List.perm_insertionSort (fun x y => x.port ≤ y.port)
    [(⟨a, "filtered", none, none⟩ : PortEntry), ⟨b, "closed", none, none⟩,
      ⟨c, "closed", none, none⟩]
  have hmapperm : ((List.insertionSort (fun x y => x.port ≤ y.port)
      [(⟨a, "filtered", none, none⟩ : PortEntry), ⟨b, "closed", none, none⟩,
        ⟨c, "closed", none, none⟩]).map PortEntry.port).Perm [22, 80, 443] := by
    have h1 := hpermr.map PortEntry.port
    have h2 : ([(⟨a, "filtered", none, none⟩ : PortEntry), ⟨b, "closed", none, none⟩,
        ⟨c, "closed", none, none⟩].map PortEntry.port) = [a, b, c] := rfl
    rw [h2] at h1
    exact h1.trans (habc ▸ hperm)
  have hsorted : List.Sorted (fun x y => x ≤ y)
      ((List.insertionSort (fun x y => x.port ≤ y.port)
        [(⟨a, "filtered", none, none⟩ : PortEntry), ⟨b, "closed", none, none⟩,
          ⟨c, "closed", none, none⟩]).map PortEntry.port) := by
    rw [List.Sorted, List.pairwise_map]
    exact List.sorted_insertionSort _ _
  have hmap : ((List.insertionSort (fun x y => x.port ≤ y.port)
      [(⟨a, "filtered", none, none⟩ : PortEntry), ⟨b, "closed", none, none⟩,
        ⟨c, "closed", none, none⟩]).map PortEntry.port) = [22, 80, 443] :=
    List.eq_of_perm_of_sorted hmapperm hsorted (by decide)
  refine ⟨hmap, ?_, ?_⟩
  · have := congrArg List.length hmap
    simpa using this
  · intro e he
    have he' := hpermr.subset he
    rcases List.mem_cons.mp he' with rfl | he2
    · exact Or.inr (Or.inr rfl)
    rcases List.mem_cons.mp he2 with rfl | he3
    · exact Or.inr (Or.inl rfl)
    rcases List.mem_cons.mp he3 with rfl | he4
    · exact Or.inr (Or.inl rfl)
    · simp at he4

/-! ## Content discovery lemmas -/

theorem join_randChoice_mem {α : Type} {l : List (Option α)} {f : Frac}
    (hf : f.Valid) (hl : l ≠ []) : (randChoice l f).join ∈ l := by
  rcases randChoice_mem hf hl with ⟨a, ha, heq⟩
  rw [heq]
  simpa using ha

theorem dirLoopT_erase (g : ℕ → Frac) (accepted : List (Option ℤ)) (rec : Bool) :
    ∀ (dirs : List String) (resT : List (PathEntry × Bool)) (k : ℕ),
      (dirLoopT g accepted rec dirs resT k).1.map Prod.fst
          = (dirLoop g accepted rec dirs (resT.map Prod.fst) k).1 ∧
      (dirLoopT g accepted rec dirs resT k).2
          = (dirLoop g accepted rec dirs (resT.map Prod.fst) k).2 := by
  intro dirs
  induction dirs with
  | nil => intro resT k; exact ⟨rfl, rfl⟩
  | cons d ds ih =>
    intro resT k
    simp only [dirLoopT, dirLoop]
    split_ifs <;>
      (constructor
       · rw [(ih _ _).1]
         simp [List.map_append]
       · rw [(ih _ _).2]
         simp [List.map_append])

theorem extLoopT_erase (g : ℕ → Frac) (accepted : List (Option ℤ)) (file : String) :
    ∀ (exts : List String) (resT : List (PathEntry × Bool)) (k : ℕ),
      (extLoopT g accepted file exts resT k).1.map Prod.fst
          = (extLoop g accepted file exts (resT.map Prod.fst) k).1 ∧
      (extLoopT g accepted file exts resT k).2
          = (extLoop g accepted file exts (resT.map Prod.fst) k).2 := by
  intro exts
  induction exts with
  | nil => intro resT k; exact ⟨rfl, rfl⟩
  | cons x xs ih =>
    intro resT k
    simp only [extLoopT, extLoop]
    split
    · exact ih resT (k + 1)
    · split
      · exact ih resT (k + 1)
      · constructor
        · rw [(ih _ _).1]
          simp [List.map_append]
        · rw [(ih _ _).2]
          simp [List.map_append]

theorem fileLoopT_erase (g : ℕ → Frac) (accepted : List (Option ℤ)) (exts : List String) :
    ∀ (files : List String) (resT : List (PathEntry × Bool)) (k : ℕ),
      (fileLoopT g accepted exts files resT k).1.map Prod.fst
          = (fileLoop g accepted exts files (resT.map Prod.fst) k).1 ∧
      (fileLoopT g accepted exts files resT k).2
          = (fileLoop g accepted exts files (resT.map Prod.fst) k).2 := by
  intro files
  induction files with
  | nil => intro resT k; exact ⟨rfl, rfl⟩
  | cons f fs ih =>
    intro resT k
    simp only [fileLoopT, fileLoop]
    obtain ⟨he1, he2⟩ := extLoopT_erase g accepted f exts resT k
    rw [(ih _ _).1, (ih _ _).2, he1, he2]
    exact ⟨rfl, rfl⟩

theorem dirLoopT_erase_fst (g : ℕ → Frac) (accepted : List (Option ℤ)) (rec : Bool)
    (dirs : List String) (resT : List (PathEntry × Bool)) (k : ℕ) :
    (dirLoopT g accepted rec dirs resT k).1.map Prod.fst
      = (dirLoop g accepted rec dirs (resT.map Prod.fst) k).1 :=
  (dirLoopT_erase g accepted rec dirs resT k).1

theorem dirLoopT_erase_snd (g : ℕ → Frac) (accepted : List (Option ℤ)) (rec : Bool)
    (dirs : List String) (resT : List (PathEntry × Bool)) (k : ℕ) :
    (dirLoopT g accepted rec dirs resT k).2
      = (dirLoop g accepted rec dirs (resT.map Prod.fst) k).2 :=
  (dirLoopT_erase g accepted rec dirs resT k).2

theorem fileLoopT_erase_fst (g : ℕ → Frac) (accepted : List (Option ℤ))
    (exts files : List String) (resT : List (PathEntry × Bool)) (k : ℕ) :
    (fileLoopT g accepted exts files resT k).1.map Prod.fst
      = (fileLoop g accepted exts files (resT.map Prod.fst) k).1 :=
  (fileLoopT_erase g accepted exts files resT k).1

theorem simulateContentDiscoveryT_erase (url wlt : String) (rec : Bool) (fexts : String)
    (threads : ℕ) (codes : String) (g : ℕ → Frac) (k : ℕ) :
    (simulateContentDiscoveryT url wlt rec fexts threads codes g k).map Prod.fst
      = simulateContentDiscovery url wlt rec fexts threads codes g k := by
  unfold simulateContentDiscovery simulateContentDiscoveryT
  dsimp only
  rw [List.map_take, fileLoopT_erase_fst, dirLoopT_erase_fst, dirLoopT_erase_snd]
  simp only [List.map_nil]

theorem dirLoopT_inv (g : ℕ → Frac) (accepted : List (Option ℤ)) (rec : Bool)
    (hg : ValidRng g) (hne : accepted ≠ []) :
    ∀ (dirs : List String) (res : List (PathEntry × Bool)) (k : ℕ),
      (∀ p ∈ res, (p.2 = false → p.1.statusCode ∈ accepted) ∧
        (p.2 = true → p.1.statusCode ∈ ([some 200, some 403, some 301] : List (Option ℤ)))) →
        ∀ p ∈ (dirLoopT g accepted rec dirs res k).1,
          (p.2 = false → p.1.statusCode ∈ accepted) ∧
            (p.2 = true →
              p.1.statusCode ∈ ([some 200, some 403, some 301] : List (Option ℤ))) := by
  intro dirs
  induction dirs with
  | nil => intro res k hres p hp; exact hres p hp
  | cons d ds ih =>
    intro res k hres p hp
    have hpool : (if 0 < accepted.length then accepted
        else [some 200, some 301, some 302, some 403]) = accepted :=
      if_pos (List.length_pos.mpr hne)
    simp only [dirLoopT] at hp
    rw [hpool] at hp
    refine ih _ _ ?_ p hp
    intro p' hp'
    split_ifs at hp' <;>
      (rcases List.mem_append.mp hp' with hr | hnew
       · exact hres p' hr
       · rcases List.mem_cons.mp hnew with rfl | hnew2
         · exact ⟨fun _ => join_randChoice_mem (hg k) hne, fun hc => Bool.noConfusion hc⟩
         · first
           | (rcases List.mem_cons.mp hnew2 with rfl | hnew3
              · exact ⟨fun hc => Bool.noConfusion hc,
                  fun _ => join_randChoice_mem (hg _) (by simp)⟩
              · simp at hnew3)
           | simp at hnew2)

theorem extLoopT_inv (g : ℕ → Frac) (accepted : List (Option ℤ)) (file : String)
    (hg : ValidRng g) (hne : accepted ≠ []) :
    ∀ (exts : List String) (res : List (PathEntry × Bool)) (k : ℕ),
      (∀ p ∈ res, (p.2 = false → p.1.statusCode ∈ accepted) ∧
        (p.2 = true → p.1.statusCode ∈ ([some 200, some 403, some 301] : List (Option ℤ)))) →
        ∀ p ∈ (extLoopT g accepted file exts res k).1,
          (p.2 = false → p.1.statusCode ∈ accepted) ∧
            (p.2 = true →
              p.1.statusCode ∈ ([some 200, some 403, some 301] : List (Option ℤ))) := by
  intro exts
  induction exts with
  | nil => intro res k hres p hp; exact hres p hp
  | cons x xs ih =>
    intro res k hres p hp
    have hpool : (if 0 < accepted.length then accepted
        else [some 200, some 404, some 403]) = accepted :=
      if_pos (List.length_pos.mpr hne)
    simp only [extLoopT] at hp
    split at hp
    · exact ih _ _ hres p hp
    · split at hp
      · exact ih _ _ hres p hp
      · rw [hpool] at hp
        refine ih _ _ ?_ p hp
        intro p' hp'
        rcases List.mem_append.mp hp' with hr | hnew
        · exact hres p' hr
        · rcases List.mem_cons.mp hnew with rfl | hnew2
          · exact ⟨fun _ => join_randChoice_mem (hg _) hne, fun hc => Bool.noConfusion hc⟩
          · simp at hnew2

theorem fileLoopT_inv (g : ℕ → Frac) (accepted : List (Option ℤ)) (exts : List String)
    (hg : ValidRng g) (hne : accepted ≠ []) :
    ∀ (files : List String) (res : List (PathEntry × Bool)) (k : ℕ),
      (∀ p ∈ res, (p.2 = false → p.1.statusCode ∈ accepted) ∧
        (p.2 = true → p.1.statusCode ∈ ([some 200, some 403, some 301] : List (Option ℤ)))) →
        ∀ p ∈ (fileLoopT g accepted exts files res k).1,
          (p.2 = false → p.1.statusCode ∈ accepted) ∧
            (p.2 = true →
              p.1.statusCode ∈ ([some 200, some 403, some 301] : List (Option ℤ))) := by
  intro files
  induction files with
  | nil => intro res k hres p hp; exact hres p hp
  | cons f fs ih =>
    intro res k hres p hp
    simp only [fileLoopT] at hp
    exact ih _ _ (extLoopT_inv g accepted f hg hne exts res k hres) p hp

/-- Claim C4 (counterexample): with the non-empty accepted set `{500}` and
recursion enabled, a run returns an entry added by the recursive secondary
check whose status code (301) is not a member of the accepted set. -/
theorem c4_counterexample :
    parseStatusCodes "500" ≠ [] ∧
    ∃ e ∈ simulateContentDiscovery "http://target.example" "default" true "" 5 "500"
        (constFrac 4 5) 0, e.statusCode ∉ parseStatusCodes "500" := by decide

/-- Claim C4 (amended): with a non-empty caller-supplied accepted set, the
content-discovery output is the tag-erasure of the instrumented run, in which
every entry produced by the main directory/file generation (tag `false`) has
a statusCode that is a member of the accepted set, and every entry added by
the recursive secondary check (tag `true`) has a statusCode in the fixed
`[200, 403, 301]` pool. -/
theorem c4_status_partition (url wlt : String) (rec : Bool) (fexts : String)
    (threads : ℕ) (codes : String) (g : ℕ → Frac) (k : ℕ)
    (hg : ValidRng g) (hne : parseStatusCodes codes ≠ []) :
    (simulateContentDiscoveryT url wlt rec fexts threads codes g k).map Prod.fst
        = simulateContentDiscovery url wlt rec fexts threads codes g k ∧
    ∀ p ∈ simulateContentDiscoveryT url wlt rec fexts threads codes g k,
      (p.2 = false → p.1.statusCode ∈ parseStatusCodes codes) ∧
        (p.2 = true →
          p.1.statusCode ∈ ([some 200, some 403, some 301] : List (Option ℤ))) := by
  refine ⟨simulateContentDiscoveryT_erase url wlt rec fexts threads codes g k, ?_⟩
  intro p hp
  unfold simulateContentDiscoveryT at hp
  dsimp only at hp
  have hp2 := List.take_subset _ _ hp
  refine fileLoopT_inv g (parseStatusCodes codes) _ hg hne _ _ _ ?_ p hp2
  refine dirLoopT_inv g (parseStatusCodes codes) rec hg hne _ _ _ ?_
  intro p' hp'
  simp at hp'

/-- Witness for `c4_status_partition` at a concrete run with accepted set
`{200}`. -/
theorem c4_status_partition_witness :
    ((simulateContentDiscoveryT "http://target.example" "default" true "" 5 "200"
        (constFrac 0 2) 0).map Prod.fst
      = simulateContentDiscovery "http://target.example" "default" true "" 5 "200"
        (constFrac 0 2) 0) ∧
    (simulateContentDiscoveryT "http://target.example" "default" true "" 5 "200"
        (constFrac 0 2) 0).all
      (fun p => decide ((p.2 = false → p.1.statusCode ∈ parseStatusCodes "200") ∧
        (p.2 = true →
          p.1.statusCode ∈ ([some 200, some 403, some 301] : List (Option ℤ))))) = true := by
  have h := c4_status_partition "http://target.example" "default" true "" 5 "200"
    (constFrac 0 2) 0 (fun _ => Nat.zero_lt_succ 1) (by decide)
  refine ⟨h.1, ?_⟩
  rw [List.all_eq_true]
  intro p hp
  exact decide_eq_true (h.2 p hp)

/-- Witness for `c10_unsupported_type_completes_empty` at the CONTENT type. -/
theorem c10_unsupported_type_completes_empty_witness :
    memGetScanResults (processScan ⟨.ok [], .ok [], .ok []⟩
        (memCreateScan initialStore "example.com" ScanType.content 2).1 1 ScanType.content)
        1 = [] ∧
    (memGetScan (processScan ⟨.ok [], .ok [], .ok []⟩
        (memCreateScan initialStore "example.com" ScanType.content 2).1 1 ScanType.content)
        1).map Scan.findings = some (some Findings.emptyObj) ∧
    (memGetScan (processScan ⟨.ok [], .ok [], .ok []⟩
        (memCreateScan initialStore "example.com" ScanType.content 2).1 1 ScanType.content)
        1).map Scan.status = some ScanStatus.completed :=
  c10_unsupported_type_completes_empty ⟨.ok [], .ok [], .ok []⟩ "example.com" 2
    ScanType.content (by decide)

end HackTrail
